import Mathlib

/-!
# go-queryset: the query-set generator (`internal/queryset/generator/queryset.go`)

A shallow embedding of the generation entry point and of the helpers it is
built from, followed by the properties proved about them.

## Modelling conventions

* A Go `string` holding program text (comment text, identifiers, receiver
  declarations) is UTF-8 text; it is modelled as the list of its Unicode
  scalar values, `GoString := List Char`.  On UTF-8 text the byte-wise library
  operations used by the source (`strings.Split` on `":"`,
  `strings.TrimPrefix` with `"//"`, `strings.Compare`) agree with the
  code-point versions defined below, because UTF-8 is self-synchronising and
  order preserving.
* The Go standard library is not part of the repository; the functions of
  `strings`, `unicode` and `sort` that the source calls are modelled from their
  documented behaviour.
* `map[string]parser.ParsedStruct` is modelled by the list of its entries in
  the order in which one particular `range` loop visits them.
* Types and values declared in other files of the repository
  (`parser.ParsedStruct`'s field type, `field.Info`, the field classifier, the
  methods builder, the built-in template `qsTmpl`) are parameters.
-/

namespace QuerySet

/-! ## Go strings -/

/-- A Go string holding UTF-8 text, as the list of its code points. -/
abbrev GoString := List Char

/-- The Go `unicode.IsSpace`: in Latin-1 the characters
`'\t'`, `'\n'`, `'\v'`, `'\f'`, `'\r'`, `' '`, U+0085, U+00A0; beyond Latin-1
the characters of the Unicode `White_Space` property. -/
def IsSpace (r : Char) : Bool :=
  let n := r.toNat
  if n ≤ 0xFF then
    n == 0x09 || n == 0x0A || n == 0x0B || n == 0x0C || n == 0x0D || n == 0x20 ||
      n == 0x85 || n == 0xA0
  else
    n == 0x1680 || (0x2000 ≤ n && n ≤ 0x200A) || n == 0x2028 || n == 0x2029 ||
      n == 0x202F || n == 0x205F || n == 0x3000

/-- The Go `strings.TrimLeftFunc(s, unicode.IsSpace)`. -/
def TrimLeftSpace (s : GoString) : GoString := s.dropWhile IsSpace

/-- The Go `strings.TrimRightFunc(s, unicode.IsSpace)`. -/
def TrimRightSpace (s : GoString) : GoString := (s.reverse.dropWhile IsSpace).reverse

/-- The Go `strings.TrimSpace`: all leading and trailing white space, as
defined by Unicode, removed. -/
def TrimSpace (s : GoString) : GoString := TrimRightSpace (TrimLeftSpace s)

/-- The Go `strings.HasPrefix`. -/
def HasPrefix (s pre : GoString) : Bool := pre.isPrefixOf s

/-- The Go `strings.TrimPrefix`: `s` without the leading `pre` when `s` starts
with it, `s` unchanged otherwise. -/
def TrimPrefix (s pre : GoString) : GoString :=
  if HasPrefix s pre then s.drop pre.length else s

/-- The scanning loop of `strings.Split` for a non-empty separator: `skip` is
the number of characters of an already matched separator still to be passed,
`cur` the piece collected since the last separator. -/
def splitFrom (sep : GoString) : Nat → GoString → GoString → List GoString
  | _, cur, [] => [cur]
  | skip + 1, cur, _ :: cs => splitFrom sep skip cur cs
  | 0, cur, c :: cs =>
    if sep.isPrefixOf (c :: cs) then cur :: splitFrom sep (sep.length - 1) [] cs
    else splitFrom sep 0 (cur ++ [c]) cs

/-- The Go `strings.Split(s, sep)`: the substrings of `s` between the
occurrences of `sep` (one more than there are occurrences); with an empty
separator, the characters of `s` one by one. -/
def Split (s sep : GoString) : List GoString :=
  if sep = [] then s.map (fun c => [c]) else splitFrom sep 0 [] s

/-- The Go `strings.Compare`: `-1`, `0` or `+1` as `a` is lexicographically
less than, equal to or greater than `b`. -/
def Compare : GoString → GoString → Int
  | [], [] => 0
  | [], _ :: _ => -1
  | _ :: _, [] => 1
  | a :: as, b :: bs =>
    if a.toNat < b.toNat then -1
    else if b.toNat < a.toNat then 1
    else Compare as bs

/-! ## The data model -/

/-- The `ast.Comment` of `go/ast`: one comment, `Text` being its source text
with the comment marker. -/
structure Comment where
  Text : GoString
  deriving DecidableEq, Repr

/-- The `ast.CommentGroup` of `go/ast`: a sequence of comments with no other
tokens between them. -/
structure CommentGroup where
  List : List Comment
  deriving DecidableEq, Repr

/-- The `parser.ParsedStruct` as the generator reads it: type name, raw fields
in declaration order, and the doc comment (`nil` when there is none).  The
field type `F` is declared outside this file. -/
structure ParsedStruct (F : Type) where
  TypeName : GoString
  Fields : List F
  Doc : Option CommentGroup
  deriving DecidableEq, Repr

/-- The `methods.Method` interface as the generator uses it: the two getters
`GetReceiverDeclaration` and `GetMethodName`, and whatever else the
implementation carries (`rest`). -/
structure Method where
  GetReceiverDeclaration : GoString
  GetMethodName : GoString
  rest : GoString
  deriving DecidableEq, Repr

/-- The `methodsSlice` type. -/
abbrev methodsSlice := List Method

/-- The `querySetStructConfig` struct; `I` is `field.Info`. -/
structure querySetStructConfig (I : Type) where
  StructName : GoString
  Name : GoString
  Methods : methodsSlice
  Fields : List I
  deriving DecidableEq, Repr

/-- The `querySetStructConfigSlice` type. -/
abbrev querySetStructConfigSlice (I : Type) := List (querySetStructConfig I)

/-! ## The annotation detector -/

/-- The body of the `for` loop of `doesNeedToGenerateQuerySet`: the test `ok`
computed for one comment. -/
def markerOk (c : Comment) : Bool :=
  match Split (TrimSpace c.Text) ":".toList with
  | [p0, p1] =>
    TrimSpace (TrimPrefix p0 "//".toList) == "gen".toList &&
      TrimSpace p1 == "qs".toList
  | _ => false

/-- The `for _, c := range doc.List` loop of `doesNeedToGenerateQuerySet`,
with its early `return true` and the final `return false`. -/
def markerLoop : List Comment → Bool
  | [] => false
  | c :: cs => if markerOk c then true else markerLoop cs

/-- The function `doesNeedToGenerateQuerySet`. -/
def doesNeedToGenerateQuerySet (doc : Option CommentGroup) : Bool :=
  match doc with
  | none => false
  | some g => markerLoop g.List

/-! ## Sorting -/

/-- The element comparison of `methodsSlice.Less(i, j)`, for `a = s[i]` and
`b = s[j]`: by receiver declaration first, by method name inside one
receiver. -/
def methodsSlice.Less (a b : Method) : Bool :=
  let receiverCmp := Compare a.GetReceiverDeclaration b.GetReceiverDeclaration
  if receiverCmp != 0 then decide (receiverCmp < 0)
  else decide (Compare a.GetMethodName b.GetMethodName < 0)

/-- The element comparison of `querySetStructConfigSlice.Less(i, j)`, for
`a = s[i]` and `b = s[j]`. -/
def querySetStructConfigSlice.Less {I : Type} (a b : querySetStructConfig I) : Bool :=
  decide (Compare a.Name b.Name < 0)

/-- What `sort.Interface` asks of `Less`: a strict ordering that is transitive
and whose negation is transitive as well. -/
structure StrictWeakOrder {α : Type} (less : α → α → Bool) : Prop where
  irrefl : ∀ a, less a a = false
  trans : ∀ a b c, less a b = true → less b c = true → less a c = true
  negTrans : ∀ a b c, less a b = false → less b c = false → less a c = false

/-- The library function `sort.Sort` by its contract: it only swaps elements,
so the result is a rearrangement of the input, and for a `Less` that is a
strict weak ordering no element of the result is `Less` than an earlier one.
The order among elements that `Less` does not tell apart is left to the
implementation (`sort.Sort` is not stable). -/
structure SortContract where
  run : {α : Type} → (α → α → Bool) → List α → List α
  perm : ∀ {α : Type} (less : α → α → Bool) (l : List α), (run less l).Perm l
  sorted : ∀ {α : Type} (less : α → α → Bool) (l : List α), StrictWeakOrder less →
    (run less l).Pairwise (fun a b => less b a = false)

/-- Insertion of one element in front of the first element it is `less` than. -/
def orderedInsert {α : Type} (less : α → α → Bool) (a : α) : List α → List α
  | [] => [a]
  | b :: l => if less a b then a :: b :: l else b :: orderedInsert less a l

/-- Insertion sort by `less`, one implementation of the contract of
`sort.Sort`. -/
def insertionSort {α : Type} (less : α → α → Bool) : List α → List α
  | [] => []
  | a :: l => orderedInsert less a (insertionSort less l)

/-- Insertion sort meets the contract of `sort.Sort`. -/
def insertionSortContract : SortContract where
  run := fun less l => insertionSort less l
  perm := by
    intro α less l
    have hins : ∀ (a : α) (l : List α), (orderedInsert less a l).Perm (a :: l) := by
      intro a l
      induction l with
      | nil => exact List.Perm.refl _
      | cons b l ih =>
        simp only [orderedInsert]
        split_ifs
        · exact List.Perm.refl _
        · exact (List.Perm.cons b ih).trans (List.Perm.swap a b l)
    induction l with
    | nil => exact List.Perm.refl _
    | cons a l ih => exact (hins a _).trans (List.Perm.cons a ih)
  sorted := by
    intro α less l hw
    have hmem : ∀ (a : α) (l : List α) (y : α), y ∈ orderedInsert less a l → y = a ∨ y ∈ l := by
      intro a l
      induction l with
      | nil => intro y hy; simpa [orderedInsert] using hy
      | cons b l ih =>
        intro y hy
        simp only [orderedInsert] at hy
        split_ifs at hy
        · simpa using hy
        · rcases List.mem_cons.1 hy with h | h
          · exact Or.inr (List.mem_cons.2 (Or.inl h))
          · rcases ih y h with h | h
            · exact Or.inl h
            · exact Or.inr (List.mem_cons.2 (Or.inr h))
    have hins : ∀ (a : α) (l : List α), l.Pairwise (fun x y => less y x = false) →
        (orderedInsert less a l).Pairwise (fun x y => less y x = false) := by
      intro a l
      induction l with
      | nil => intro _; simp [orderedInsert]
      | cons b l ih =>
        intro hl
        have hb := List.pairwise_cons.1 hl
        simp only [orderedInsert]
        by_cases hab : less a b = true
        · rw [if_pos hab]
          refine List.pairwise_cons.2 ⟨?_, hl⟩
          have hba : less b a = false := by
            cases h : less b a
            · rfl
            · have := hw.trans a b a hab h
              rw [hw.irrefl a] at this
              exact absurd this (by decide)
          intro y hy
          rcases List.mem_cons.1 hy with h | h
          · rw [h]; exact hba
          · exact hw.negTrans y b a (hb.1 y h) hba
        · rw [if_neg hab]
          refine List.pairwise_cons.2 ⟨?_, ih hb.2⟩
          intro y hy
          rcases hmem a l y hy with h | h
          · rw [h]; simpa using hab
          · exact hb.1 y h
    induction l with
    | nil => exact List.Pairwise.nil
    | cons a l ih => exact hins a _ ih

/-! ## Templates and the code declared in other files -/

/-- A `*template.Template` as the generator uses it: `Execute` applied to the
data (the struct with the single field `Configs`) gives the text written to the
writer and the error returned (`none` for `nil`), an error being represented by
its message. -/
structure Template (I : Type) where
  Execute : querySetStructConfigSlice I → GoString × Option GoString

/-- The `GenerateQuerySetsOptions` struct. -/
structure GenerateQuerySetsOptions (I : Type) where
  customTemplate : Option (Template I)

/-- What the generator takes from outside `queryset.go`: the field classifier
`field.NewInfoGenerator(types).GenFieldInfo(f)`, the methods builder
`newMethodsBuilder(s, fields).Build()`, the built-in template `qsTmpl` and the
library's `sort.Sort`.  `T` stands for `*types.Package`, `F` for the parser's
field type and `I` for `field.Info`. -/
structure Externals (T F I : Type) where
  GenFieldInfo : T → F → Option I
  Build : ParsedStruct F → List I → methodsSlice
  qsTmpl : Template I
  sort : SortContract

/-! ## The config assembler -/

/-- The function `genStructFieldInfos`: `ret` starts empty and receives, in
the order of `s.Fields`, the descriptor of each field for which `GenFieldInfo`
returns one. -/
def genStructFieldInfos {T F I : Type} (E : Externals T F I) (s : ParsedStruct F)
    (types : T) : List I :=
  s.Fields.foldl
    (fun ret f =>
      match E.GenFieldInfo types f with
      | none => ret
      | some fi => ret ++ [fi])
    []

/-- One round of the `for _, s := range structs` loop of
`generateQuerySetConfigs`, `acc` being `querySetStructConfigs` before it. -/
def generateQuerySetConfigsStep {T F I : Type} (E : Externals T F I) (types : T)
    (acc : querySetStructConfigSlice I) (s : ParsedStruct F) : querySetStructConfigSlice I :=
  if !doesNeedToGenerateQuerySet s.Doc then acc
  else
    let fields := genStructFieldInfos E s types
    let methods := E.Build s fields
    let qsConfig : querySetStructConfig I :=
      { StructName := s.TypeName
        Name := s.TypeName ++ "QuerySet".toList
        Methods := methods
        Fields := fields }
    let qsConfig := { qsConfig with Methods := E.sort.run methodsSlice.Less qsConfig.Methods }
    acc ++ [qsConfig]

/-- The function `generateQuerySetConfigs`; `structs` holds the entries of the
map (key and struct) in the order in which the `range` loop visits them. -/
def generateQuerySetConfigs {T F I : Type} (E : Externals T F I) (types : T)
    (structs : List (GoString × ParsedStruct F)) : querySetStructConfigSlice I :=
  structs.foldl (fun acc kv => generateQuerySetConfigsStep E types acc kv.2) []

/-! ## The entry point -/

/-- What `GenerateQuerySetsForStructs` returns: the content of the reader
(`none` for a `nil` reader) and the message of the error (`none` for `nil`).
`executed` is not part of the Go result: it counts the calls of `t.Execute`
made during the run. -/
structure GenResult where
  reader : Option GoString
  err : Option GoString
  executed : Nat
  deriving DecidableEq, Repr

/-- The `for _, t := range templates` loop of `GenerateQuerySetsForStructs`
with the `return` after it: `b` is the buffer, `n` the number of executions so
far. -/
def executeTemplates {I : Type} (Configs : querySetStructConfigSlice I) :
    List (Template I) → GoString → Nat → GenResult
  | [], b, n => { reader := some b, err := none, executed := n }
  | t :: ts, b, n =>
    match t.Execute Configs with
    | (_, some err) =>
      { reader := none
        err := some ("can't generate structs query sets: ".toList ++ err)
        executed := n + 1 }
    | (w, none) => executeTemplates Configs ts (b ++ w) (n + 1)

/-- The loop `for _, o := range opts { o(&options) }` of
`GenerateQuerySetsForStructs`: the functional options applied in order to the
zero value of `GenerateQuerySetsOptions`. -/
def applyOptions {I : Type}
    (opts : List (GenerateQuerySetsOptions I → GenerateQuerySetsOptions I)) :
    GenerateQuerySetsOptions I :=
  opts.foldl (fun options o => o options) { customTemplate := none }

/-- The function `GenerateQuerySetsForStructs`; `opts` are the functional
options. -/
def GenerateQuerySetsForStructs {T F I : Type} (E : Externals T F I) (types : T)
    (structs : List (GoString × ParsedStruct F))
    (opts : List (GenerateQuerySetsOptions I → GenerateQuerySetsOptions I)) : GenResult :=
  let options : GenerateQuerySetsOptions I := applyOptions opts
  let querySetStructConfigs := generateQuerySetConfigs E types structs
  if querySetStructConfigs.length == 0 then
    { reader := none, err := none, executed := 0 }
  else
    let querySetStructConfigs := E.sort.run querySetStructConfigSlice.Less querySetStructConfigs
    let templates : List (Template I) := [E.qsTmpl]
    let templates :=
      match options.customTemplate with
      | some t => templates ++ [t]
      | none => templates
    executeTemplates querySetStructConfigs templates [] 0

/-! ## Derived descriptions and sample inputs -/

/-- The config that one round of the loop of `generateQuerySetConfigs` appends
for a selected struct `s`, written as one value. -/
def querySetConfigOf {T F I : Type} (E : Externals T F I) (types : T) (s : ParsedStruct F) :
    querySetStructConfig I :=
  { StructName := s.TypeName
    Name := s.TypeName ++ "QuerySet".toList
    Methods := E.sort.run methodsSlice.Less (E.Build s (genStructFieldInfos E s types))
    Fields := genStructFieldInfos E s types }

/-- The configs handed to the templates by `GenerateQuerySetsForStructs`: the
value of `querySetStructConfigs` after `sort.Sort(querySetStructConfigs)`. -/
def sortedQuerySetConfigs {T F I : Type} (E : Externals T F I) (types : T)
    (structs : List (GoString × ParsedStruct F)) : querySetStructConfigSlice I :=
  E.sort.run querySetStructConfigSlice.Less (generateQuerySetConfigs E types structs)

/-- The relation `a <= b` between Go strings, in the order of `strings.Compare`. -/
def strLE (a b : GoString) : Prop := Compare a b ≤ 0

/-- The relation `a < b` between Go strings, in the order of `strings.Compare`. -/
def strLT (a b : GoString) : Prop := Compare a b < 0

instance (a b : GoString) : Decidable (strLE a b) := by unfold strLE; infer_instance

instance (a b : GoString) : Decidable (strLT a b) := by unfold strLT; infer_instance

/-- The doc comment `// gen:qs`, preceded by an ordinary comment line. -/
def sampleMarkedDoc : Option CommentGroup :=
  some ⟨[⟨"// User is a sample model".toList⟩, ⟨"// gen:qs".toList⟩]⟩

/-- Sample externals: fields and descriptors are field names, a field named
`raw` is not classifiable; every classified field gets a setter on the updater
and a filter on the query set, and every struct gets an `All` method; the
built-in template prints the struct names, each followed by `;`; sorting is
insertion sort. -/
def sampleExternals : Externals Unit GoString GoString where
  GenFieldInfo := fun _ f => if f = "raw".toList then none else some f
  Build := fun s fields =>
    fields.flatMap (fun f =>
      [ { GetReceiverDeclaration := "u ".toList ++ s.TypeName ++ "Updater".toList
          GetMethodName := "Set".toList ++ f
          rest := [] },
        { GetReceiverDeclaration := "qs ".toList ++ s.TypeName ++ "QuerySet".toList
          GetMethodName := f ++ "Eq".toList
          rest := [] } ]) ++
      [ { GetReceiverDeclaration := "qs ".toList ++ s.TypeName ++ "QuerySet".toList
          GetMethodName := "All".toList
          rest := [] } ]
  qsTmpl := ⟨fun cs => (cs.flatMap (fun c => c.StructName ++ ";".toList), none)⟩
  sort := insertionSortContract

/-- The struct `User`, marked, with the fields `Name`, `raw` and `Age`. -/
def sampleUser : ParsedStruct GoString :=
  { TypeName := "User".toList
    Fields := ["Name".toList, "raw".toList, "Age".toList]
    Doc := sampleMarkedDoc }

/-- The struct `Audit`, without a doc comment. -/
def sampleAudit : ParsedStruct GoString :=
  { TypeName := "Audit".toList, Fields := ["At".toList], Doc := none }

/-- The struct `UserGroup`, marked, whose only field is not classifiable. -/
def sampleUserGroup : ParsedStruct GoString :=
  { TypeName := "UserGroup".toList, Fields := ["raw".toList], Doc := sampleMarkedDoc }

/-- A sample struct map, keyed by type name: `User` and `UserGroup` carry the
marker, `Audit` does not. -/
def sampleStructs : List (GoString × ParsedStruct GoString) :=
  [ ("User".toList, sampleUser), ("Audit".toList, sampleAudit),
    ("UserGroup".toList, sampleUserGroup) ]

/-- A struct map in which no struct carries the marker: one struct without a
doc comment, one whose doc comment is `//gen:qs2`. -/
def sampleUnmarkedStructs : List (GoString × ParsedStruct GoString) :=
  [ ("Audit".toList,
      { TypeName := "Audit".toList, Fields := ["At".toList], Doc := none }),
    ("Plain".toList,
      { TypeName := "Plain".toList
        Fields := ["Name".toList]
        Doc := some ⟨[⟨"//gen:qs2".toList⟩]⟩ }) ]

/-- A custom template whose execution fails after writing some text. -/
def sampleFailingTemplate : Template GoString :=
  ⟨fun _ => ("partial".toList, some "template: custom:1: unexpected EOF".toList)⟩

/-- A custom template that prints the query-set type names, each followed by
a line break. -/
def sampleCustomTemplate : Template GoString :=
  ⟨fun cs => (cs.flatMap (fun c => c.Name ++ "\n".toList), none)⟩

/-! ## Facts about the string functions -/

theorem Compare_range (a b : GoString) : -1 ≤ Compare a b ∧ Compare a b ≤ 1 := by
  induction a generalizing b with
  | nil => cases b <;> simp [Compare]
  | cons x xs ih =>
    cases b with
    | nil => simp [Compare]
    | cons y ys =>
      simp only [Compare]
      split_ifs
      · omega
      · omega
      · exact ih ys

theorem Compare_self (a : GoString) : Compare a a = 0 := by
  induction a with
  | nil => rfl
  | cons x xs ih => simp [Compare, ih]

theorem toNat_inj {x y : Char} (h : x.toNat = y.toNat) : x = y := by
  apply Char.ext
  apply UInt32.ext
  exact h

theorem Compare_eq_zero {a b : GoString} (h : Compare a b = 0) : a = b := by
  induction a generalizing b with
  | nil => cases b <;> simp_all [Compare]
  | cons x xs ih =>
    cases b with
    | nil => simp [Compare] at h
    | cons y ys =>
      simp only [Compare] at h
      by_cases h1 : x.toNat < y.toNat
      · simp [h1] at h
      · by_cases h2 : y.toNat < x.toNat
        · simp [h1, h2] at h
        · simp only [h1, h2, if_false] at h
          have hxy : x = y := toNat_inj (by omega)
          rw [hxy, ih h]

theorem Compare_eq_zero_iff (a b : GoString) : Compare a b = 0 ↔ a = b :=
  ⟨Compare_eq_zero, fun h => h ▸ Compare_self a⟩

theorem Compare_swap (a b : GoString) : Compare b a = -Compare a b := by
  induction a generalizing b with
  | nil => cases b <;> simp [Compare]
  | cons x xs ih =>
    cases b with
    | nil => simp [Compare]
    | cons y ys =>
      simp only [Compare]
      split_ifs <;> first | omega | exact ih ys

theorem Compare_lt_trans {a b c : GoString} (h1 : Compare a b < 0) (h2 : Compare b c < 0) :
    Compare a c < 0 := by
  induction a generalizing b c with
  | nil =>
    cases c with
    | nil => cases b <;> simp [Compare] at h1 h2
    | cons z zs => simp [Compare]
  | cons x xs ih =>
    cases b with
    | nil => simp [Compare] at h1
    | cons y ys =>
      cases c with
      | nil => simp [Compare] at h2
      | cons z zs =>
        simp only [Compare] at h1 h2 ⊢
        split_ifs at h1 h2 ⊢ <;> first | omega | exact ih h1 h2

/-! ## Facts about the two orderings -/

theorem Compare_neg_iff (a b : GoString) : Compare a b < 0 ↔ 0 < Compare b a := by
  rw [Compare_swap a b]; omega

theorem Compare_le_trans {a b c : GoString} (h1 : Compare a b ≤ 0) (h2 : Compare b c ≤ 0) :
    Compare a c ≤ 0 := by
  by_cases e1 : Compare a b = 0
  · rw [Compare_eq_zero e1]; exact h2
  · by_cases e2 : Compare b c = 0
    · rw [← Compare_eq_zero e2]; exact h1
    · have := @Compare_lt_trans a b c (by omega) (by omega)
      omega

theorem methodsSlice_Less_iff (a b : Method) :
    methodsSlice.Less a b = true ↔
      Compare a.GetReceiverDeclaration b.GetReceiverDeclaration < 0 ∨
        (a.GetReceiverDeclaration = b.GetReceiverDeclaration ∧
          Compare a.GetMethodName b.GetMethodName < 0) := by
  unfold methodsSlice.Less
  by_cases h : Compare a.GetReceiverDeclaration b.GetReceiverDeclaration = 0
  · have e := Compare_eq_zero h
    simp [h, e, Compare_self]
  · have ne : a.GetReceiverDeclaration ≠ b.GetReceiverDeclaration := fun e =>
      h ((Compare_eq_zero_iff _ _).2 e)
    simp [h, ne]

theorem methodsSlice_Less_eq_false_iff (a b : Method) :
    methodsSlice.Less b a = false ↔
      Compare a.GetReceiverDeclaration b.GetReceiverDeclaration < 0 ∨
        (a.GetReceiverDeclaration = b.GetReceiverDeclaration ∧
          Compare a.GetMethodName b.GetMethodName ≤ 0) := by
  rw [← Bool.not_eq_true, methodsSlice_Less_iff]
  have hr := Compare_swap a.GetReceiverDeclaration b.GetReceiverDeclaration
  have hn := Compare_swap a.GetMethodName b.GetMethodName
  have hz := Compare_eq_zero_iff a.GetReceiverDeclaration b.GetReceiverDeclaration
  constructor
  · intro h
    by_cases e : a.GetReceiverDeclaration = b.GetReceiverDeclaration
    · right
      refine ⟨e, ?_⟩
      by_contra hc
      exact h (Or.inr ⟨e.symm, by omega⟩)
    · left
      by_contra hc
      have : Compare a.GetReceiverDeclaration b.GetReceiverDeclaration ≠ 0 := fun z => e (hz.1 z)
      exact h (Or.inl (by omega))
  · rintro (h | ⟨e, h⟩) (h2 | ⟨e2, h2⟩)
    · omega
    · have := hz.2 e2.symm; omega
    · have := hz.2 e; omega
    · omega

theorem methodsSlice_Less_strictWeakOrder : StrictWeakOrder methodsSlice.Less where
  irrefl := by
    intro a
    rw [← Bool.not_eq_true, methodsSlice_Less_iff]
    simp [Compare_self]
  trans := by
    intro a b c
    simp only [methodsSlice_Less_iff]
    rintro (h1 | ⟨e1, h1⟩) (h2 | ⟨e2, h2⟩)
    · exact Or.inl (Compare_lt_trans h1 h2)
    · exact Or.inl (e2 ▸ h1)
    · exact Or.inl (e1 ▸ h2)
    · exact Or.inr ⟨e1.trans e2, Compare_lt_trans h1 h2⟩
  negTrans := by
    intro a b c
    simp only [methodsSlice_Less_eq_false_iff]
    rintro (h1 | ⟨e1, h1⟩) (h2 | ⟨e2, h2⟩)
    · exact Or.inl (Compare_lt_trans h2 h1)
    · exact Or.inl (e2 ▸ h1)
    · exact Or.inl (e1 ▸ h2)
    · exact Or.inr ⟨e2.trans e1, Compare_le_trans h2 h1⟩

theorem querySetStructConfigSlice_Less_strictWeakOrder {I : Type} :
    StrictWeakOrder (@querySetStructConfigSlice.Less I) where
  irrefl := by
    intro a
    simp [querySetStructConfigSlice.Less, Compare_self]
  trans := by
    intro a b c
    simp only [querySetStructConfigSlice.Less, decide_eq_true_eq]
    exact Compare_lt_trans
  negTrans := by
    intro a b c
    simp only [querySetStructConfigSlice.Less, decide_eq_false_iff_not, not_lt]
    intro h1 h2
    have s1 := Compare_swap a.Name b.Name
    have s2 := Compare_swap b.Name c.Name
    have s3 := Compare_swap a.Name c.Name
    have := @Compare_le_trans c.Name b.Name a.Name (by omega) (by omega)
    omega

/-! ## The annotation detector: characterisation -/

theorem markerOk_iff (c : Comment) :
    markerOk c = true ↔
      ∃ p0 p1, Split (TrimSpace c.Text) ":".toList = [p0, p1] ∧
        TrimSpace (TrimPrefix p0 "//".toList) = "gen".toList ∧
        TrimSpace p1 = "qs".toList := by
  unfold markerOk
  split
  · rename_i p0 p1 h
    constructor
    · intro hok
      simp only [Bool.and_eq_true, beq_iff_eq] at hok
      exact ⟨p0, p1, h, hok.1, hok.2⟩
    · rintro ⟨q0, q1, hq, h0, h1⟩
      rw [h] at hq
      simp only [List.cons.injEq, and_true] at hq
      simp only [Bool.and_eq_true, beq_iff_eq]
      rw [hq.1, hq.2]
      exact ⟨h0, h1⟩
  · rename_i h
    constructor
    · intro hf
      exact absurd hf (by decide)
    · rintro ⟨q0, q1, hq, -, -⟩
      exact absurd hq (h q0 q1)

theorem markerLoop_iff (l : List Comment) :
    markerLoop l = true ↔ ∃ c ∈ l, markerOk c = true := by
  induction l with
  | nil => simp [markerLoop]
  | cons c cs ih =>
    simp only [markerLoop, List.mem_cons, exists_eq_or_imp]
    by_cases h : markerOk c = true
    · simp [h]
    · simp [h, ih]

/-- C1: `doesNeedToGenerateQuerySet` returns true exactly when the doc block is
present and holds a comment `c` for which `TrimSpace(c.Text)` split on `:` has
exactly two parts, the first of which, with one leading `//` removed and
trimmed, is `gen`, and the second of which, trimmed, is `qs`; an absent doc
block is not selected. -/
theorem doesNeedToGenerateQuerySet_iff (doc : Option CommentGroup) :
    (doesNeedToGenerateQuerySet doc = true ↔
      ∃ g, doc = some g ∧ ∃ c ∈ g.List, ∃ p0 p1,
        Split (TrimSpace c.Text) ":".toList = [p0, p1] ∧
        TrimSpace (TrimPrefix p0 "//".toList) = "gen".toList ∧
        TrimSpace p1 = "qs".toList) ∧
    doesNeedToGenerateQuerySet none = false := by
  refine ⟨?_, rfl⟩
  cases doc with
  | none => simp [doesNeedToGenerateQuerySet]
  | some g =>
    simp only [doesNeedToGenerateQuerySet, markerLoop_iff, markerOk_iff, Option.some.injEq,
      exists_eq_left']

/-! ## Trimming and splitting concatenations -/

theorem dropWhile_append_of_all (p : Char → Bool) (w l : GoString)
    (hw : ∀ c ∈ w, p c = true) : (w ++ l).dropWhile p = l.dropWhile p := by
  induction w with
  | nil => rfl
  | cons x xs ih =>
    have hx : p x = true := hw x (List.mem_cons_self x xs)
    have hxs : ∀ c ∈ xs, p c = true := fun c hc => hw c (List.mem_cons_of_mem x hc)
    simp [List.dropWhile, hx, ih hxs]

theorem TrimLeftSpace_append (w l : GoString) (hw : ∀ c ∈ w, IsSpace c = true) :
    TrimLeftSpace (w ++ l) = TrimLeftSpace l :=
  dropWhile_append_of_all IsSpace w l hw

theorem TrimLeftSpace_cons (x : Char) (l : GoString) (hx : IsSpace x = false) :
    TrimLeftSpace (x :: l) = x :: l := by
  simp [TrimLeftSpace, List.dropWhile, hx]

theorem TrimRightSpace_append (l v : GoString) (hv : ∀ c ∈ v, IsSpace c = true) :
    TrimRightSpace (l ++ v) = TrimRightSpace l := by
  unfold TrimRightSpace
  rw [List.reverse_append,
    dropWhile_append_of_all IsSpace v.reverse l.reverse (fun c hc => hv c (List.mem_reverse.1 hc))]

theorem TrimRightSpace_concat (l : GoString) (y : Char) (hy : IsSpace y = false) :
    TrimRightSpace (l ++ [y]) = l ++ [y] := by
  simp [TrimRightSpace, List.dropWhile, hy]

/-- Trimming a text whose first and last characters are not white space, padded
with white space on both sides, gives the text back. -/
theorem TrimSpace_pad (w v m : GoString) (x y : Char)
    (hw : ∀ c ∈ w, IsSpace c = true) (hv : ∀ c ∈ v, IsSpace c = true)
    (hx : IsSpace x = false) (hy : IsSpace y = false) :
    TrimSpace (w ++ (x :: m ++ [y]) ++ v) = x :: m ++ [y] := by
  unfold TrimSpace
  rw [List.append_assoc, TrimLeftSpace_append _ _ hw]
  rw [show (x :: m ++ [y]) ++ v = x :: (m ++ [y] ++ v) by simp, TrimLeftSpace_cons _ _ hx]
  rw [show x :: (m ++ [y] ++ v) = ((x :: m) ++ [y]) ++ v by simp, TrimRightSpace_append _ _ hv,
    TrimRightSpace_concat _ _ hy]

theorem splitFrom_colon_of_not_mem (cur b : GoString) (hb : ':' ∉ b) :
    splitFrom [':'] 0 cur b = [cur ++ b] := by
  induction b generalizing cur with
  | nil => simp [splitFrom]
  | cons c cs ih =>
    have hc : c ≠ ':' := fun e => hb (e ▸ List.mem_cons_self c cs)
    have hcs : ':' ∉ cs := fun h => hb (List.mem_cons_of_mem c h)
    have hp : [':'].isPrefixOf (c :: cs) = false := by
      simp [List.isPrefixOf, hc.symm]
    rw [splitFrom, hp]
    simp [ih _ hcs]

theorem splitFrom_colon_append (cur a b : GoString) (ha : ':' ∉ a) :
    splitFrom [':'] 0 cur (a ++ ':' :: b) = (cur ++ a) :: splitFrom [':'] 0 [] b := by
  induction a generalizing cur with
  | nil =>
    have hp : [':'].isPrefixOf (':' :: b) = true := by
      simp [List.isPrefixOf]
    rw [List.nil_append, splitFrom, hp]
    simp
  | cons c cs ih =>
    have hc : c ≠ ':' := fun e => ha (e ▸ List.mem_cons_self c cs)
    have hcs : ':' ∉ cs := fun h => ha (List.mem_cons_of_mem c h)
    have hp : [':'].isPrefixOf (c :: (cs ++ ':' :: b)) = false := by
      simp [List.isPrefixOf, hc.symm]
    rw [List.cons_append, splitFrom, hp]
    simp [ih _ hcs]

/-- Splitting on `:` a text with exactly one colon gives the two sides. -/
theorem Split_colon_one (a b : GoString) (ha : ':' ∉ a) (hb : ':' ∉ b) :
    Split (a ++ ':' :: b) ":".toList = [a, b] := by
  have e : ":".toList = [':'] := rfl
  have hne : [':'] ≠ ([] : GoString) := by decide
  rw [e, Split, if_neg hne, splitFrom_colon_append _ _ _ ha, splitFrom_colon_of_not_mem _ _ hb]
  simp

theorem not_mem_of_all_space (w : GoString) (hw : ∀ c ∈ w, IsSpace c = true) (x : Char)
    (hx : IsSpace x = false) : x ∉ w := by
  intro h
  rw [hw x h] at hx
  exact absurd hx (by decide)

/-! ## The annotation detector: the marker and white space -/

theorem markerOk_padded (w1 w2 w3 w4 w5 : GoString)
    (h1 : ∀ c ∈ w1, IsSpace c = true) (h2 : ∀ c ∈ w2, IsSpace c = true)
    (h3 : ∀ c ∈ w3, IsSpace c = true) (h4 : ∀ c ∈ w4, IsSpace c = true)
    (h5 : ∀ c ∈ w5, IsSpace c = true) :
    markerOk ⟨w1 ++ "//".toList ++ w2 ++ "gen".toList ++ w3 ++ ":".toList ++ w4 ++
      "qs".toList ++ w5⟩ = true := by
  have hslash : IsSpace '/' = false := by decide
  have hs : IsSpace 's' = false := by decide
  have hg : IsSpace 'g' = false := by decide
  have hn : IsSpace 'n' = false := by decide
  have hq : IsSpace 'q' = false := by decide
  have hcolon : IsSpace ':' = false := by decide
  have e1 : w1 ++ "//".toList ++ w2 ++ "gen".toList ++ w3 ++ ":".toList ++ w4 ++
      "qs".toList ++ w5 =
      w1 ++ ('/' :: ('/' :: (w2 ++ 'g' :: 'e' :: 'n' :: (w3 ++ ':' :: (w4 ++ ['q']))))
        ++ ['s']) ++ w5 := by
    simp [String.toList]
  have e2 : '/' :: ('/' :: (w2 ++ 'g' :: 'e' :: 'n' :: (w3 ++ ':' :: (w4 ++ ['q'])))) ++ ['s'] =
      ('/' :: '/' :: (w2 ++ 'g' :: 'e' :: 'n' :: w3)) ++ ':' :: (w4 ++ ['q', 's']) := by
    simp
  have ha : ':' ∉ '/' :: '/' :: (w2 ++ 'g' :: 'e' :: 'n' :: w3) := by
    have n2 := not_mem_of_all_space w2 h2 ':' hcolon
    have n3 := not_mem_of_all_space w3 h3 ':' hcolon
    simp [n2, n3]
  have hb : ':' ∉ w4 ++ ['q', 's'] := by
    have n4 := not_mem_of_all_space w4 h4 ':' hcolon
    simp [n4]
  rw [markerOk_iff]
  refine ⟨'/' :: '/' :: (w2 ++ 'g' :: 'e' :: 'n' :: w3), w4 ++ ['q', 's'], ?_, ?_, ?_⟩
  · show Split (TrimSpace (w1 ++ "//".toList ++ w2 ++ "gen".toList ++ w3 ++ ":".toList ++ w4 ++
      "qs".toList ++ w5)) ":".toList = _
    rw [e1, TrimSpace_pad _ _ _ _ _ h1 h5 hslash hs, e2, Split_colon_one _ _ ha hb]
  · have e3 : TrimPrefix ('/' :: '/' :: (w2 ++ 'g' :: 'e' :: 'n' :: w3)) "//".toList =
        w2 ++ ('g' :: ['e'] ++ ['n']) ++ w3 := by
      simp [TrimPrefix, HasPrefix, String.toList, List.isPrefixOf]
    rw [e3, TrimSpace_pad _ _ _ _ _ h2 h3 hg hn]
    rfl
  · have e4 : w4 ++ ['q', 's'] = w4 ++ ('q' :: [] ++ ['s']) ++ [] := by simp
    rw [e4, TrimSpace_pad _ _ _ _ _ h4 (by simp) hq hs]
    rfl

/-- C9: whatever white space surrounds `//`, `gen`, `:` and `qs`, a doc block
containing the comment `w1 // w2 gen w3 : w4 qs w5` is selected; so are the
blocks `// gen:qs` and `//gen:qs`. -/
theorem doesNeedToGenerateQuerySet_whitespace (w1 w2 w3 w4 w5 : GoString) (g : CommentGroup)
    (h1 : ∀ c ∈ w1, IsSpace c = true) (h2 : ∀ c ∈ w2, IsSpace c = true)
    (h3 : ∀ c ∈ w3, IsSpace c = true) (h4 : ∀ c ∈ w4, IsSpace c = true)
    (h5 : ∀ c ∈ w5, IsSpace c = true)
    (hg : (⟨w1 ++ "//".toList ++ w2 ++ "gen".toList ++ w3 ++ ":".toList ++ w4 ++
      "qs".toList ++ w5⟩ : Comment) ∈ g.List) :
    doesNeedToGenerateQuerySet (some g) = true ∧
      doesNeedToGenerateQuerySet (some ⟨[⟨"// gen:qs".toList⟩]⟩) = true ∧
      doesNeedToGenerateQuerySet (some ⟨[⟨"//gen:qs".toList⟩]⟩) = true := by
  refine ⟨?_, by decide, by decide⟩
  show markerLoop g.List = true
  rw [markerLoop_iff]
  exact ⟨_, hg, markerOk_padded w1 w2 w3 w4 w5 h1 h2 h3 h4 h5⟩

theorem doesNeedToGenerateQuerySet_whitespace_witness :
    doesNeedToGenerateQuerySet
        (some ⟨[⟨"// a comment".toList⟩, ⟨"\t // \u00a0gen \t:\u3000 qs \r".toList⟩]⟩) = true ∧
      doesNeedToGenerateQuerySet (some ⟨[⟨"// gen:qs".toList⟩]⟩) = true ∧
      doesNeedToGenerateQuerySet (some ⟨[⟨"//gen:qs".toList⟩]⟩) = true :=
  doesNeedToGenerateQuerySet_whitespace "\t ".toList " \u00a0".toList " \t".toList
    "\u3000 ".toList " \r".toList
    ⟨[⟨"// a comment".toList⟩, ⟨"\t // \u00a0gen \t:\u3000 qs \r".toList⟩]⟩
    (by decide) (by decide) (by decide) (by decide) (by decide) (by decide)

/-- C10 (as stated, refuted): the doc block whose only line is `// gen : qs`
is not rejected by `doesNeedToGenerateQuerySet`. -/
theorem gen_space_colon_space_qs_not_rejected :
    ¬ (doesNeedToGenerateQuerySet (some ⟨[⟨"// gen : qs".toList⟩]⟩) = false) := by
  decide

/-- C10 (amended): the doc block whose only line is `// gen : qs`, with a space
on each side of the colon, is selected: both parts are trimmed before they are
compared with `gen` and `qs`. -/
theorem gen_space_colon_space_qs_selected :
    doesNeedToGenerateQuerySet (some ⟨[⟨"// gen : qs".toList⟩]⟩) = true := by
  decide

/-! ## The config assembler: shape of the result -/

theorem generateQuerySetConfigsStep_eq {T F I : Type} (E : Externals T F I) (types : T)
    (acc : querySetStructConfigSlice I) (s : ParsedStruct F) :
    generateQuerySetConfigsStep E types acc s =
      if doesNeedToGenerateQuerySet s.Doc = true then acc ++ [querySetConfigOf E types s]
      else acc := by
  unfold generateQuerySetConfigsStep querySetConfigOf
  cases h : doesNeedToGenerateQuerySet s.Doc <;> simp

theorem foldl_generateQuerySetConfigsStep {T F I : Type} (E : Externals T F I) (types : T)
    (structs : List (GoString × ParsedStruct F)) (acc : querySetStructConfigSlice I) :
    structs.foldl (fun acc kv => generateQuerySetConfigsStep E types acc kv.2) acc =
      acc ++ (structs.filter (fun kv => doesNeedToGenerateQuerySet kv.2.Doc)).map
        (fun kv => querySetConfigOf E types kv.2) := by
  induction structs generalizing acc with
  | nil => simp
  | cons kv rest ih =>
    rw [List.foldl_cons, ih, generateQuerySetConfigsStep_eq]
    by_cases h : doesNeedToGenerateQuerySet kv.2.Doc = true
    · simp [h, List.filter_cons]
    · simp [h, List.filter_cons]

/-- The loop of `generateQuerySetConfigs` yields, in iteration order, the
config of every selected struct and nothing else. -/
theorem generateQuerySetConfigs_eq {T F I : Type} (E : Externals T F I) (types : T)
    (structs : List (GoString × ParsedStruct F)) :
    generateQuerySetConfigs E types structs =
      (structs.filter (fun kv => doesNeedToGenerateQuerySet kv.2.Doc)).map
        (fun kv => querySetConfigOf E types kv.2) := by
  unfold generateQuerySetConfigs
  rw [foldl_generateQuerySetConfigsStep]
  simp

theorem mem_generateQuerySetConfigs {T F I : Type} (E : Externals T F I) (types : T)
    (structs : List (GoString × ParsedStruct F)) (c : querySetStructConfig I) :
    c ∈ generateQuerySetConfigs E types structs ↔
      ∃ kv ∈ structs, doesNeedToGenerateQuerySet kv.2.Doc = true ∧
        c = querySetConfigOf E types kv.2 := by
  rw [generateQuerySetConfigs_eq, List.mem_map]
  constructor
  · rintro ⟨kv, hkv, rfl⟩
    rw [List.mem_filter] at hkv
    exact ⟨kv, hkv.1, hkv.2, rfl⟩
  · rintro ⟨kv, hkv, hsel, rfl⟩
    exact ⟨kv, List.mem_filter.2 ⟨hkv, hsel⟩, rfl⟩

theorem pairwise_getElem? {α : Type} {R : α → α → Prop} {l : List α} (h : l.Pairwise R)
    {i j : Nat} {a b : α} (hij : i < j) (ha : l[i]? = some a) (hb : l[j]? = some b) : R a b := by
  obtain ⟨hi, rfl⟩ := List.getElem?_eq_some_iff.1 ha
  obtain ⟨hj, rfl⟩ := List.getElem?_eq_some_iff.1 hb
  exact List.pairwise_iff_getElem.1 h i j hi hj hij

/-- C2: in every config produced by `generateQuerySetConfigs` the methods are in
ascending order of (receiver declaration, method name): of the methods at two
positions `i < j`, either the first has the smaller receiver declaration, or
the receiver declarations are equal and the first method name is less than or
equal to the second. -/
theorem generateQuerySetConfigs_methods_sorted {T F I : Type} (E : Externals T F I) (types : T)
    (structs : List (GoString × ParsedStruct F)) (c : querySetStructConfig I)
    (hc : c ∈ generateQuerySetConfigs E types structs)
    (i j : Nat) (a b : Method) (hij : i < j)
    (ha : c.Methods[i]? = some a) (hb : c.Methods[j]? = some b) :
    strLT a.GetReceiverDeclaration b.GetReceiverDeclaration ∨
      (a.GetReceiverDeclaration = b.GetReceiverDeclaration ∧
        strLE a.GetMethodName b.GetMethodName) := by
  obtain ⟨kv, -, -, rfl⟩ := (mem_generateQuerySetConfigs E types structs c).1 hc
  have hs := E.sort.sorted methodsSlice.Less (E.Build kv.2 (genStructFieldInfos E kv.2 types))
    methodsSlice_Less_strictWeakOrder
  have := pairwise_getElem? hs hij ha hb
  exact (methodsSlice_Less_eq_false_iff a b).1 this

theorem generateQuerySetConfigs_methods_sorted_witness :
    strLT "qs UserQuerySet".toList "u UserUpdater".toList ∨
      ("qs UserQuerySet".toList = "u UserUpdater".toList ∧
        strLE "NameEq".toList "SetAge".toList) :=
  generateQuerySetConfigs_methods_sorted sampleExternals () sampleStructs
    { StructName := "User".toList
      Name := "UserQuerySet".toList
      Methods :=
        [ ⟨"qs UserQuerySet".toList, "AgeEq".toList, []⟩,
          ⟨"qs UserQuerySet".toList, "All".toList, []⟩,
          ⟨"qs UserQuerySet".toList, "NameEq".toList, []⟩,
          ⟨"u UserUpdater".toList, "SetAge".toList, []⟩,
          ⟨"u UserUpdater".toList, "SetName".toList, []⟩ ]
      Fields := ["Name".toList, "Age".toList] }
    (by decide) 2 3
    ⟨"qs UserQuerySet".toList, "NameEq".toList, []⟩
    ⟨"u UserUpdater".toList, "SetAge".toList, []⟩
    (by decide) (by decide) (by decide)

/-- C7: the config of a selected struct with type name `T` has `StructName = T`
and `Name = T ++ "QuerySet"` (every config comes from a selected struct in this
way, and every selected struct has such a config); two configs with distinct
struct names have distinct query-set names. -/
theorem generateQuerySetConfigs_naming {T F I : Type} (E : Externals T F I) (types : T)
    (structs : List (GoString × ParsedStruct F)) :
    (∀ c ∈ generateQuerySetConfigs E types structs,
      ∃ kv ∈ structs, doesNeedToGenerateQuerySet kv.2.Doc = true ∧
        c.StructName = kv.2.TypeName ∧ c.Name = kv.2.TypeName ++ "QuerySet".toList) ∧
    (∀ kv ∈ structs, doesNeedToGenerateQuerySet kv.2.Doc = true →
      ∃ c ∈ generateQuerySetConfigs E types structs,
        c.StructName = kv.2.TypeName ∧ c.Name = kv.2.TypeName ++ "QuerySet".toList) ∧
    (∀ c₁ ∈ generateQuerySetConfigs E types structs,
      ∀ c₂ ∈ generateQuerySetConfigs E types structs,
        c₁.StructName ≠ c₂.StructName → c₁.Name ≠ c₂.Name) := by
  refine ⟨?_, ?_, ?_⟩
  · intro c hc
    obtain ⟨kv, hkv, hsel, rfl⟩ := (mem_generateQuerySetConfigs E types structs c).1 hc
    exact ⟨kv, hkv, hsel, rfl, rfl⟩
  · intro kv hkv hsel
    exact ⟨querySetConfigOf E types kv.2,
      (mem_generateQuerySetConfigs E types structs _).2 ⟨kv, hkv, hsel, rfl⟩, rfl, rfl⟩
  · intro c₁ h₁ c₂ h₂ hne hname
    obtain ⟨kv₁, -, -, rfl⟩ := (mem_generateQuerySetConfigs E types structs c₁).1 h₁
    obtain ⟨kv₂, -, -, rfl⟩ := (mem_generateQuerySetConfigs E types structs c₂).1 h₂
    exact hne (List.append_cancel_right hname)

/-- C8: the configs produced by `generateQuerySetConfigs` correspond one to one,
in iteration order, to the structs whose doc block is selected: their struct
names are the type names of the selected structs, so an unselected struct
contributes nothing; and a selected struct none of whose fields is classifiable
still contributes its config, with no field descriptors. -/
theorem generateQuerySetConfigs_one_per_selected {T F I : Type} (E : Externals T F I) (types : T)
    (structs : List (GoString × ParsedStruct F)) :
    (generateQuerySetConfigs E types structs).map (fun c => c.StructName) =
        (structs.filter (fun kv => doesNeedToGenerateQuerySet kv.2.Doc)).map
          (fun kv => kv.2.TypeName) ∧
      Multiset.ofList ((generateQuerySetConfigs E types structs).map (fun c => c.StructName)) =
        Multiset.ofList ((structs.filter (fun kv => doesNeedToGenerateQuerySet kv.2.Doc)).map
          (fun kv => kv.2.TypeName)) ∧
      (∀ kv ∈ structs, doesNeedToGenerateQuerySet kv.2.Doc = true →
        (∀ f ∈ kv.2.Fields, E.GenFieldInfo types f = none) →
        ∃ c ∈ generateQuerySetConfigs E types structs,
          c.StructName = kv.2.TypeName ∧ c.Fields = []) := by
  have h1 : (generateQuerySetConfigs E types structs).map (fun c => c.StructName) =
      (structs.filter (fun kv => doesNeedToGenerateQuerySet kv.2.Doc)).map
        (fun kv => kv.2.TypeName) := by
    rw [generateQuerySetConfigs_eq, List.map_map]
    rfl
  refine ⟨h1, by rw [h1], ?_⟩
  intro kv hkv hsel hnone
  refine ⟨querySetConfigOf E types kv.2,
    (mem_generateQuerySetConfigs E types structs _).2 ⟨kv, hkv, hsel, rfl⟩, rfl, ?_⟩
  show genStructFieldInfos E kv.2 types = []
  unfold genStructFieldInfos
  generalize kv.2.Fields = fs at hnone
  induction fs with
  | nil => rfl
  | cons f fs ih =>
    rw [List.foldl_cons, hnone f (List.mem_cons_self f fs)]
    exact ih (fun g hg => hnone g (List.mem_cons_of_mem f hg))

/-! ## The entry point -/

theorem generateQuerySetConfigs_ne_nil {T F I : Type} (E : Externals T F I) (types : T)
    (structs : List (GoString × ParsedStruct F))
    (hsel : ∃ kv ∈ structs, doesNeedToGenerateQuerySet kv.2.Doc = true) :
    generateQuerySetConfigs E types structs ≠ [] := by
  obtain ⟨kv, hkv, hs⟩ := hsel
  intro h
  have hm := (mem_generateQuerySetConfigs E types structs (querySetConfigOf E types kv.2)).2
    ⟨kv, hkv, hs, rfl⟩
  rw [h] at hm
  exact absurd hm (List.not_mem_nil _)

/-- With at least one selected struct, the entry point executes the built-in
template and then the custom one, if any, on the sorted configs. -/
theorem GenerateQuerySetsForStructs_of_selected {T F I : Type} (E : Externals T F I) (types : T)
    (structs : List (GoString × ParsedStruct F))
    (opts : List (GenerateQuerySetsOptions I → GenerateQuerySetsOptions I))
    (hsel : ∃ kv ∈ structs, doesNeedToGenerateQuerySet kv.2.Doc = true) :
    GenerateQuerySetsForStructs E types structs opts =
      executeTemplates (sortedQuerySetConfigs E types structs)
        (E.qsTmpl :: (applyOptions opts).customTemplate.toList) [] 0 := by
  have hne := generateQuerySetConfigs_ne_nil E types structs hsel
  have hlen : ((generateQuerySetConfigs E types structs).length == 0) = false := by
    cases h : generateQuerySetConfigs E types structs with
    | nil => exact absurd h hne
    | cons c cs => rfl
  unfold GenerateQuerySetsForStructs sortedQuerySetConfigs
  simp only [hlen]
  cases (applyOptions opts).customTemplate <;> rfl

theorem sortedQuerySetConfigs_pairwise {T F I : Type} (E : Externals T F I) (types : T)
    (structs : List (GoString × ParsedStruct F)) :
    (sortedQuerySetConfigs E types structs).Pairwise (fun a b => strLE a.Name b.Name) := by
  have hs := E.sort.sorted querySetStructConfigSlice.Less (generateQuerySetConfigs E types structs)
    querySetStructConfigSlice_Less_strictWeakOrder
  refine List.Pairwise.imp ?_ hs
  intro a b h
  simp only [querySetStructConfigSlice.Less, decide_eq_false_iff_not, not_lt] at h
  have := Compare_swap a.Name b.Name
  unfold strLE
  omega

theorem mem_sortedQuerySetConfigs {T F I : Type} (E : Externals T F I) (types : T)
    (structs : List (GoString × ParsedStruct F)) (c : querySetStructConfig I) :
    c ∈ sortedQuerySetConfigs E types structs ↔ c ∈ generateQuerySetConfigs E types structs :=
  (E.sort.perm querySetStructConfigSlice.Less (generateQuerySetConfigs E types structs)).mem_iff

/-- Comparing two names after appending the same suffix: either the names
compare the same way, or the second is a proper prefix of the first. -/
theorem strLE_of_append_suffix (q : GoString) (a b : GoString) (h : strLE (a ++ q) (b ++ q)) :
    strLE a b ∨ (b <+: a ∧ b ≠ a) := by
  induction a generalizing b with
  | nil => left; cases b <;> simp [strLE, Compare]
  | cons x xs ih =>
    cases b with
    | nil => right; simp
    | cons y ys =>
      simp only [strLE, List.cons_append, Compare] at h ⊢
      by_cases h1 : x.toNat < y.toNat
      · left; simp [h1]
      · by_cases h2 : y.toNat < x.toNat
        · simp [h1, h2] at h
        · simp only [h1, h2, if_false] at h ⊢
          have hxy : x = y := toNat_inj (by omega)
          subst hxy
          rcases ih ys h with h3 | ⟨h3, h4⟩
          · exact Or.inl h3
          · right
            refine ⟨(List.prefix_cons_inj x).2 h3, ?_⟩
            intro e
            exact h4 (List.cons.inj e).2

/-- C3 (as stated, refuted): for the structs `User` and `UserGroup`, both
selected, the built-in template receives `UserGroup` before `User`, although
`User` is the smaller struct name. -/
theorem sortedQuerySetConfigs_not_by_StructName :
    (GenerateQuerySetsForStructs sampleExternals () sampleStructs []).reader =
        some "UserGroup;User;".toList ∧
      ¬ (∀ (i j : Nat) (a b : querySetStructConfig GoString), i < j →
          (sortedQuerySetConfigs sampleExternals () sampleStructs)[i]? = some a →
          (sortedQuerySetConfigs sampleExternals () sampleStructs)[j]? = some b →
          strLE a.StructName b.StructName) := by
  refine ⟨by decide, ?_⟩
  intro h
  have h01 := h 0 1 _ _ (by decide) rfl rfl
  revert h01
  decide

/-- C3 (amended): with at least one selected struct, the result of
`GenerateQuerySetsForStructs` is that of executing the built-in template and
then the custom template, if one is configured, on the sorted config
collection, and this collection is in ascending order of
`StructName ++ "QuerySet"`: of the configs at two positions `i < j`, the first
has the smaller or equal query-set name; its struct name is then smaller or
equal as well, unless the second struct name is a proper prefix of the
first. -/
theorem sortedQuerySetConfigs_by_query_set_name {T F I : Type} (E : Externals T F I) (types : T)
    (structs : List (GoString × ParsedStruct F))
    (opts : List (GenerateQuerySetsOptions I → GenerateQuerySetsOptions I))
    (hsel : ∃ kv ∈ structs, doesNeedToGenerateQuerySet kv.2.Doc = true) :
    GenerateQuerySetsForStructs E types structs opts =
      executeTemplates (sortedQuerySetConfigs E types structs)
        (E.qsTmpl :: (applyOptions opts).customTemplate.toList) [] 0 ∧
    ∀ (i j : Nat) (a b : querySetStructConfig I), i < j →
      (sortedQuerySetConfigs E types structs)[i]? = some a →
      (sortedQuerySetConfigs E types structs)[j]? = some b →
      strLE (a.StructName ++ "QuerySet".toList) (b.StructName ++ "QuerySet".toList) ∧
        (strLE a.StructName b.StructName ∨
          (b.StructName <+: a.StructName ∧ b.StructName ≠ a.StructName)) := by
  refine ⟨GenerateQuerySetsForStructs_of_selected E types structs opts hsel, ?_⟩
  intro i j a b hij ha hb
  have hle := pairwise_getElem? (sortedQuerySetConfigs_pairwise E types structs) hij ha hb
  have hma : a ∈ generateQuerySetConfigs E types structs :=
    (mem_sortedQuerySetConfigs E types structs a).1 (List.getElem?_mem ha)
  have hmb : b ∈ generateQuerySetConfigs E types structs :=
    (mem_sortedQuerySetConfigs E types structs b).1 (List.getElem?_mem hb)
  obtain ⟨ka, -, -, rfl⟩ := (mem_generateQuerySetConfigs E types structs a).1 hma
  obtain ⟨kb, -, -, rfl⟩ := (mem_generateQuerySetConfigs E types structs b).1 hmb
  exact ⟨hle, strLE_of_append_suffix _ _ _ hle⟩

theorem sortedQuerySetConfigs_by_query_set_name_witness :
    GenerateQuerySetsForStructs sampleExternals () sampleStructs
        [fun o => { o with customTemplate := some sampleCustomTemplate }] =
      executeTemplates (sortedQuerySetConfigs sampleExternals () sampleStructs)
        [sampleExternals.qsTmpl, sampleCustomTemplate] [] 0 ∧
    strLE ("UserGroup".toList ++ "QuerySet".toList) ("User".toList ++ "QuerySet".toList) ∧
      (strLE "UserGroup".toList "User".toList ∨
        ("User".toList <+: "UserGroup".toList ∧ "User".toList ≠ "UserGroup".toList)) :=
  ⟨(sortedQuerySetConfigs_by_query_set_name sampleExternals () sampleStructs
      [fun o => { o with customTemplate := some sampleCustomTemplate }]
      ⟨("User".toList, sampleUser), by decide, by decide⟩).1,
    (sortedQuerySetConfigs_by_query_set_name sampleExternals () sampleStructs
        [fun o => { o with customTemplate := some sampleCustomTemplate }]
        ⟨("User".toList, sampleUser), by decide, by decide⟩).2 0 1
      (querySetConfigOf sampleExternals () sampleUserGroup)
      (querySetConfigOf sampleExternals () sampleUser)
      (by decide) (by decide) (by decide)⟩

theorem GenerateQuerySetsForStructs_none_selected {T F I : Type} (E : Externals T F I)
    (types : T) (structs : List (GoString × ParsedStruct F))
    (opts : List (GenerateQuerySetsOptions I → GenerateQuerySetsOptions I))
    (hnone : ∀ kv ∈ structs, doesNeedToGenerateQuerySet kv.2.Doc = false) :
    GenerateQuerySetsForStructs E types structs opts =
      { reader := none, err := none, executed := 0 } := by
  have hnil : generateQuerySetConfigs E types structs = [] := by
    rw [generateQuerySetConfigs_eq, List.map_eq_nil_iff, List.filter_eq_nil_iff]
    intro kv hkv
    simp [hnone kv hkv]
  unfold GenerateQuerySetsForStructs
  simp [hnil]

/-- C5: when no struct of the map is selected by `doesNeedToGenerateQuerySet`
(in particular for the empty map), `GenerateQuerySetsForStructs` returns a nil
reader and a nil error and executes no template, whatever the built-in template
and the options are. -/
theorem GenerateQuerySetsForStructs_empty_selection {T F I : Type} (E : Externals T F I)
    (types : T) (structs : List (GoString × ParsedStruct F))
    (opts : List (GenerateQuerySetsOptions I → GenerateQuerySetsOptions I))
    (hnone : ∀ kv ∈ structs, doesNeedToGenerateQuerySet kv.2.Doc = false) :
    GenerateQuerySetsForStructs E types structs opts =
        { reader := none, err := none, executed := 0 } ∧
      GenerateQuerySetsForStructs E types [] opts =
        { reader := none, err := none, executed := 0 } :=
  ⟨GenerateQuerySetsForStructs_none_selected E types structs opts hnone,
    GenerateQuerySetsForStructs_none_selected E types [] opts (fun _ h => absurd h (List.not_mem_nil _))⟩

theorem GenerateQuerySetsForStructs_empty_selection_witness :
    GenerateQuerySetsForStructs sampleExternals () sampleUnmarkedStructs
        [fun o => { o with customTemplate := some sampleFailingTemplate }] =
        { reader := none, err := none, executed := 0 } ∧
      GenerateQuerySetsForStructs sampleExternals () []
        [fun o => { o with customTemplate := some sampleFailingTemplate }] =
        { reader := none, err := none, executed := 0 } :=
  GenerateQuerySetsForStructs_empty_selection sampleExternals () sampleUnmarkedStructs
    [fun o => { o with customTemplate := some sampleFailingTemplate }] (by decide)

/-- C6: with at least one selected struct, when the execution of the built-in
template fails, or when it succeeds and the execution of the configured custom
template fails, `GenerateQuerySetsForStructs` returns a nil reader and the
error whose text is `can't generate structs query sets: ` followed by the text
of the template's error. -/
theorem GenerateQuerySetsForStructs_rendering_failure {T F I : Type} (E : Externals T F I)
    (types : T) (structs : List (GoString × ParsedStruct F))
    (opts : List (GenerateQuerySetsOptions I → GenerateQuerySetsOptions I))
    (hsel : ∃ kv ∈ structs, doesNeedToGenerateQuerySet kv.2.Doc = true) :
    (∀ (w e : GoString),
      E.qsTmpl.Execute (sortedQuerySetConfigs E types structs) = (w, some e) →
      (GenerateQuerySetsForStructs E types structs opts).reader = none ∧
        (GenerateQuerySetsForStructs E types structs opts).err =
          some ("can't generate structs query sets: ".toList ++ e)) ∧
    (∀ (t : Template I) (w₀ w e : GoString),
      (applyOptions opts).customTemplate = some t →
      E.qsTmpl.Execute (sortedQuerySetConfigs E types structs) = (w₀, none) →
      t.Execute (sortedQuerySetConfigs E types structs) = (w, some e) →
      (GenerateQuerySetsForStructs E types structs opts).reader = none ∧
        (GenerateQuerySetsForStructs E types structs opts).err =
          some ("can't generate structs query sets: ".toList ++ e)) := by
  rw [GenerateQuerySetsForStructs_of_selected E types structs opts hsel]
  constructor
  · intro w e h
    simp [executeTemplates, h]
  · intro t w₀ w e ht h₀ h
    simp [executeTemplates, ht, h₀, h]

theorem GenerateQuerySetsForStructs_rendering_failure_witness :
    (GenerateQuerySetsForStructs sampleExternals () sampleStructs
        [fun o => { o with customTemplate := some sampleFailingTemplate }]).reader = none ∧
      (GenerateQuerySetsForStructs sampleExternals () sampleStructs
        [fun o => { o with customTemplate := some sampleFailingTemplate }]).err =
        some ("can't generate structs query sets: ".toList ++
          "template: custom:1: unexpected EOF".toList) :=
  (GenerateQuerySetsForStructs_rendering_failure sampleExternals () sampleStructs
      [fun o => { o with customTemplate := some sampleFailingTemplate }]
      ⟨("User".toList, sampleUser), by decide, by decide⟩).2
    sampleFailingTemplate "UserGroup;User;".toList "partial".toList
    "template: custom:1: unexpected EOF".toList rfl (by decide) rfl

/-! ## Determinism -/

theorem generateQuerySetConfigs_perm {T F I : Type} (E : Externals T F I) (types : T)
    {m₁ m₂ : List (GoString × ParsedStruct F)} (hperm : m₁.Perm m₂) :
    (generateQuerySetConfigs E types m₁).Perm (generateQuerySetConfigs E types m₂) := by
  rw [generateQuerySetConfigs_eq, generateQuerySetConfigs_eq]
  exact (hperm.filter _).map _

/-- In a map keyed by type name, two selected structs with the same query-set
name are the same entry, so their configs are equal. -/
theorem querySetConfigOf_eq_of_name_eq {T F I : Type} (E : Externals T F I) (types : T)
    (m : List (GoString × ParsedStruct F))
    (hkeys : (m.map Prod.fst).Nodup) (hkey : ∀ kv ∈ m, kv.1 = kv.2.TypeName)
    (a b : querySetStructConfig I)
    (ha : a ∈ generateQuerySetConfigs E types m) (hb : b ∈ generateQuerySetConfigs E types m)
    (hname : a.Name = b.Name) : a = b := by
  obtain ⟨ka, hka, -, rfl⟩ := (mem_generateQuerySetConfigs E types m a).1 ha
  obtain ⟨kb, hkb, -, rfl⟩ := (mem_generateQuerySetConfigs E types m b).1 hb
  have htn : ka.2.TypeName = kb.2.TypeName := List.append_cancel_right hname
  have hfst : ka.1 = kb.1 := by rw [hkey ka hka, hkey kb hkb, htn]
  have : ka = kb := List.inj_on_of_nodup_map hkeys hka hkb hfst
  rw [this]

theorem sortedQuerySetConfigs_eq_of_perm {T F I : Type} (E : Externals T F I) (types : T)
    (m₁ m₂ : List (GoString × ParsedStruct F)) (hperm : m₁.Perm m₂)
    (hkeys : (m₁.map Prod.fst).Nodup) (hkey : ∀ kv ∈ m₁, kv.1 = kv.2.TypeName) :
    sortedQuerySetConfigs E types m₁ = sortedQuerySetConfigs E types m₂ := by
  have hp : (sortedQuerySetConfigs E types m₁).Perm (sortedQuerySetConfigs E types m₂) :=
    ((E.sort.perm _ _).trans (generateQuerySetConfigs_perm E types hperm)).trans
      (E.sort.perm _ _).symm
  refine List.Perm.eq_of_sorted ?_ (sortedQuerySetConfigs_pairwise E types m₁)
    (sortedQuerySetConfigs_pairwise E types m₂) hp
  intro a b ha hb hab hba
  have ha₁ := (mem_sortedQuerySetConfigs E types m₁ a).1 ha
  have hb₁ : b ∈ generateQuerySetConfigs E types m₁ :=
    (generateQuerySetConfigs_perm E types hperm).mem_iff.2
      ((mem_sortedQuerySetConfigs E types m₂ b).1 hb)
  refine querySetConfigOf_eq_of_name_eq E types m₁ hkeys hkey a b ha₁ hb₁ ?_
  apply Compare_eq_zero
  have := Compare_swap a.Name b.Name
  unfold strLE at hab hba
  omega

/-- C4: for a struct map keyed by type name, any two iteration orders of the
map give the same sorted config collection (the same configs, with the same
methods and fields, at the same positions) and the same result of
`GenerateQuerySetsForStructs`. -/
theorem GenerateQuerySetsForStructs_deterministic {T F I : Type} (E : Externals T F I)
    (types : T) (m₁ m₂ : List (GoString × ParsedStruct F))
    (opts : List (GenerateQuerySetsOptions I → GenerateQuerySetsOptions I))
    (hperm : m₁.Perm m₂) (hkeys : (m₁.map Prod.fst).Nodup)
    (hkey : ∀ kv ∈ m₁, kv.1 = kv.2.TypeName) :
    sortedQuerySetConfigs E types m₁ = sortedQuerySetConfigs E types m₂ ∧
      GenerateQuerySetsForStructs E types m₁ opts =
        GenerateQuerySetsForStructs E types m₂ opts := by
  have hs := sortedQuerySetConfigs_eq_of_perm E types m₁ m₂ hperm hkeys hkey
  refine ⟨hs, ?_⟩
  by_cases hsel : ∃ kv ∈ m₁, doesNeedToGenerateQuerySet kv.2.Doc = true
  · have hsel₂ : ∃ kv ∈ m₂, doesNeedToGenerateQuerySet kv.2.Doc = true := by
      obtain ⟨kv, hkv, h⟩ := hsel
      exact ⟨kv, hperm.mem_iff.1 hkv, h⟩
    rw [GenerateQuerySetsForStructs_of_selected E types m₁ opts hsel,
      GenerateQuerySetsForStructs_of_selected E types m₂ opts hsel₂, hs]
  · have hnone : ∀ kv ∈ m₁, doesNeedToGenerateQuerySet kv.2.Doc = false := by
      intro kv hkv
      cases h : doesNeedToGenerateQuerySet kv.2.Doc
      · rfl
      · exact absurd ⟨kv, hkv, h⟩ hsel
    rw [GenerateQuerySetsForStructs_none_selected E types m₁ opts hnone,
      GenerateQuerySetsForStructs_none_selected E types m₂ opts
        (fun kv hkv => hnone kv (hperm.mem_iff.2 hkv))]

theorem GenerateQuerySetsForStructs_deterministic_witness :
    sortedQuerySetConfigs sampleExternals () sampleStructs =
        sortedQuerySetConfigs sampleExternals () sampleStructs.reverse ∧
      GenerateQuerySetsForStructs sampleExternals () sampleStructs
          [fun o => { o with customTemplate := some sampleCustomTemplate }] =
        GenerateQuerySetsForStructs sampleExternals () sampleStructs.reverse
          [fun o => { o with customTemplate := some sampleCustomTemplate }] :=
  GenerateQuerySetsForStructs_deterministic sampleExternals () sampleStructs
    sampleStructs.reverse [fun o => { o with customTemplate := some sampleCustomTemplate }]
    (List.reverse_perm sampleStructs).symm (by decide) (by decide)

/-! ## Sample runs of the naming and selection properties -/

theorem generateQuerySetConfigs_naming_witness :
    ∃ c ∈ generateQuerySetConfigs sampleExternals () sampleStructs,
      c.StructName = "User".toList ∧ c.Name = "User".toList ++ "QuerySet".toList :=
  (generateQuerySetConfigs_naming sampleExternals () sampleStructs).2.1
    ("User".toList, sampleUser) (by decide) (by decide)

theorem generateQuerySetConfigs_one_per_selected_witness :
    ∃ c ∈ generateQuerySetConfigs sampleExternals () sampleStructs,
      c.StructName = "UserGroup".toList ∧ c.Fields = [] :=
  (generateQuerySetConfigs_one_per_selected sampleExternals () sampleStructs).2.2
    ("UserGroup".toList, sampleUserGroup) (by decide) (by decide) (by decide)

/-! ## The annotation detector: exact matching -/

theorem dropWhile_append_cons_of_not (p : Char → Bool) (a b : GoString) (y : Char)
    (hy : p y = false) : (a ++ y :: b).dropWhile p = a.dropWhile p ++ y :: b := by
  induction a with
  | nil => simp [List.dropWhile, hy]
  | cons x xs ih =>
    cases hx : p x
    · simp [List.dropWhile, hx]
    · simp [List.dropWhile, hx, ih]

theorem TrimRightSpace_decomp (t : GoString) :
    ∃ w, (∀ c ∈ w, IsSpace c = true) ∧ t = TrimRightSpace t ++ w := by
  refine ⟨(t.reverse.takeWhile IsSpace).reverse, ?_, ?_⟩
  · intro c hc
    exact List.mem_takeWhile_imp (List.mem_reverse.1 hc)
  · unfold TrimRightSpace
    rw [← List.reverse_append, List.takeWhile_append_dropWhile, List.reverse_reverse]

theorem TrimRightSpace_append_cons (l t : GoString) (y : Char) (hy : IsSpace y = false) :
    TrimRightSpace (l ++ y :: t) = l ++ y :: TrimRightSpace t := by
  unfold TrimRightSpace
  have e : (l ++ y :: t).reverse = t.reverse ++ y :: l.reverse := by simp
  rw [e, dropWhile_append_cons_of_not IsSpace _ _ _ hy]
  simp

theorem TrimSpace_append_space (r w : GoString) (hw : ∀ c ∈ w, IsSpace c = true) :
    TrimSpace (r ++ w) = TrimSpace r := by
  induction r with
  | nil =>
    have h := dropWhile_append_of_all IsSpace w [] hw
    rw [List.append_nil] at h
    simp [TrimSpace, TrimLeftSpace, TrimRightSpace, h]
  | cons x xs ih =>
    cases hx : IsSpace x
    · unfold TrimSpace
      rw [List.cons_append, TrimLeftSpace_cons _ _ hx, TrimLeftSpace_cons _ _ hx,
        ← List.cons_append, TrimRightSpace_append _ _ hw]
    · have e1 : TrimLeftSpace (x :: xs ++ w) = TrimLeftSpace (xs ++ w) := by
        simp [TrimLeftSpace, List.dropWhile, hx]
      have e2 : TrimLeftSpace (x :: xs) = TrimLeftSpace xs := by
        simp [TrimLeftSpace, List.dropWhile, hx]
      unfold TrimSpace at ih ⊢
      rw [e1, e2, ih]

theorem TrimSpace_TrimRightSpace (t : GoString) : TrimSpace (TrimRightSpace t) = TrimSpace t := by
  obtain ⟨w, hw, e⟩ := TrimRightSpace_decomp t
  conv_rhs => rw [e]
  rw [TrimSpace_append_space _ _ hw]

theorem colon_mem_TrimRightSpace_iff (t : GoString) : ':' ∈ TrimRightSpace t ↔ ':' ∈ t := by
  obtain ⟨w, hw, e⟩ := TrimRightSpace_decomp t
  have hnw : ':' ∉ w := not_mem_of_all_space w hw ':' (by decide)
  conv_rhs => rw [e]
  simp [hnw]

theorem length_splitFrom_colon (cur s : GoString) :
    (splitFrom [':'] 0 cur s).length = s.count ':' + 1 := by
  induction s generalizing cur with
  | nil => simp [splitFrom]
  | cons c cs ih =>
    by_cases hc : c = ':'
    · subst hc
      simp [splitFrom, List.isPrefixOf, ih]
    · have hc2 : ¬ (':' = c) := fun e => hc e.symm
      simp [splitFrom, List.isPrefixOf, hc, hc2, ih, List.count_cons]

theorem length_Split_colon (s : GoString) : (Split s ":".toList).length = s.count ':' + 1 := by
  have e : ":".toList = [':'] := rfl
  have hne : [':'] ≠ ([] : GoString) := by decide
  rw [e, Split, if_neg hne, length_splitFrom_colon]

/-- The test of one comment whose trimmed text is `a`, a colon, and `r`, where
`a` has no colon. -/
theorem markerOk_of_colon (c : Comment) (a r : GoString) (ha : ':' ∉ a)
    (htext : TrimSpace c.Text = a ++ ':' :: r) :
    markerOk c = true ↔
      ':' ∉ r ∧ TrimSpace (TrimPrefix a "//".toList) = "gen".toList ∧
        TrimSpace r = "qs".toList := by
  rw [markerOk_iff, htext]
  constructor
  · rintro ⟨p0, p1, hsplit, h0, h1⟩
    have hlen := length_Split_colon (a ++ ':' :: r)
    rw [hsplit] at hlen
    have hcount : r.count ':' = 0 := by
      have hca : a.count ':' = 0 := List.count_eq_zero.2 ha
      simp [List.count_append, hca] at hlen
      omega
    have hr : ':' ∉ r := List.count_eq_zero.1 hcount
    rw [Split_colon_one a r ha hr] at hsplit
    simp only [List.cons.injEq, and_true] at hsplit
    rw [← hsplit.1] at h0
    rw [← hsplit.2] at h1
    exact ⟨hr, h0, h1⟩
  · rintro ⟨hr, h0, h1⟩
    exact ⟨a, r, Split_colon_one a r ha hr, h0, h1⟩

theorem doesNeedToGenerateQuerySet_single (c : Comment) :
    doesNeedToGenerateQuerySet (some ⟨[c]⟩) = markerOk c := by
  cases h : markerOk c <;> simp [doesNeedToGenerateQuerySet, markerLoop, h]

theorem markerOk_gen_colon (t : GoString) :
    markerOk ⟨"// gen:".toList ++ t⟩ = true ↔ ':' ∉ t ∧ TrimSpace t = "qs".toList := by
  have htext : TrimSpace (Comment.mk ("// gen:".toList ++ t)).Text =
      "// gen".toList ++ ':' :: TrimRightSpace t := by
    show TrimSpace ("// gen:".toList ++ t) = _
    have e : "// gen:".toList ++ t = '/' :: ("/ gen".toList ++ ':' :: t) := by
      simp [String.toList]
    have e2 : '/' :: ("/ gen".toList ++ ':' :: t) = "// gen".toList ++ ':' :: t := by
      simp [String.toList]
    unfold TrimSpace
    rw [e, TrimLeftSpace_cons _ _ (by decide), e2, TrimRightSpace_append_cons _ _ _ (by decide)]
  rw [markerOk_of_colon _ _ _ (by decide) htext, colon_mem_TrimRightSpace_iff,
    TrimSpace_TrimRightSpace]
  have hgen : TrimSpace (TrimPrefix "// gen".toList "//".toList) = "gen".toList := by decide
  exact ⟨fun h => ⟨h.1, h.2.2⟩, fun h => ⟨h.1, hgen, h.2⟩⟩

theorem markerOk_colon_qs (k : GoString) :
    markerOk ⟨"// ".toList ++ k ++ ":qs".toList⟩ = true ↔
      ':' ∉ k ∧ TrimSpace k = "gen".toList := by
  have e : "// ".toList ++ k ++ ":qs".toList =
      [] ++ ('/' :: ("/ ".toList ++ k ++ ":q".toList) ++ ['s']) ++ [] := by
    simp [String.toList]
  have e2 : '/' :: ("/ ".toList ++ k ++ ":q".toList) ++ ['s'] =
      ("// ".toList ++ k) ++ ':' :: "qs".toList := by
    simp [String.toList]
  have htext : TrimSpace (Comment.mk ("// ".toList ++ k ++ ":qs".toList)).Text =
      ("// ".toList ++ k) ++ ':' :: "qs".toList := by
    show TrimSpace ("// ".toList ++ k ++ ":qs".toList) = _
    rw [e, TrimSpace_pad _ _ _ _ _ (by simp) (by simp) (by decide) (by decide), e2]
  by_cases hk : ':' ∈ k
  · constructor
    · intro hok
      obtain ⟨p0, p1, hsplit, -, -⟩ := (markerOk_iff _).1 hok
      have hlen := length_Split_colon (("// ".toList ++ k) ++ ':' :: "qs".toList)
      rw [htext] at hsplit
      have hpos : 0 < k.count ':' := List.count_pos_iff.2 hk
      have hcnt : (("// ".toList ++ k) ++ ':' :: "qs".toList).count ':' = k.count ':' + 1 := by
        have h1 : ("// ".toList).count ':' = 0 := by decide
        have h2 : (':' :: "qs".toList).count ':' = 1 := by decide
        rw [List.count_append, List.count_append, h1, h2]
        omega
      rw [hsplit, hcnt] at hlen
      simp at hlen
      omega
    · intro h
      exact absurd hk h.1
  · have ha : ':' ∉ "// ".toList ++ k := by simp [String.toList, hk]
    rw [markerOk_of_colon _ _ _ ha htext]
    have hp : TrimPrefix ("// ".toList ++ k) "//".toList = [' '] ++ k := by
      simp [TrimPrefix, HasPrefix, String.toList, List.isPrefixOf]
    have hsp : TrimSpace ([' '] ++ k) = TrimSpace k := by
      unfold TrimSpace
      rw [TrimLeftSpace_append _ _ (by simp; decide)]
    have hqs : TrimSpace "qs".toList = "qs".toList := by decide
    have hc : ':' ∉ "qs".toList := by decide
    rw [hp, hsp]
    exact ⟨fun h => ⟨hk, h.2.1⟩, fun h => ⟨hc, h.2, hqs⟩⟩

/-- C11: the tokens are compared exactly: the doc block whose only line is
`// gen:` followed by `t` is selected exactly when `t` has no colon and
`TrimSpace(t)` is `qs`, and the doc block whose only line is `// ` followed by
`k` and `:qs` is selected exactly when `k` has no colon and `TrimSpace(k)` is
`gen`; the lines `//gen:qs2`, `// generate:queryset`, `// Gen:qs`, `// gen:QS`
and `// gen:qs: note` are not selected. -/
theorem doesNeedToGenerateQuerySet_exact :
    (∀ t : GoString,
      doesNeedToGenerateQuerySet (some ⟨[⟨"// gen:".toList ++ t⟩]⟩) = true ↔
        ':' ∉ t ∧ TrimSpace t = "qs".toList) ∧
    (∀ k : GoString,
      doesNeedToGenerateQuerySet (some ⟨[⟨"// ".toList ++ k ++ ":qs".toList⟩]⟩) = true ↔
        ':' ∉ k ∧ TrimSpace k = "gen".toList) ∧
    doesNeedToGenerateQuerySet (some ⟨[⟨"//gen:qs2".toList⟩]⟩) = false ∧
    doesNeedToGenerateQuerySet (some ⟨[⟨"// generate:queryset".toList⟩]⟩) = false ∧
    doesNeedToGenerateQuerySet (some ⟨[⟨"// Gen:qs".toList⟩]⟩) = false ∧
    doesNeedToGenerateQuerySet (some ⟨[⟨"// gen:QS".toList⟩]⟩) = false ∧
    doesNeedToGenerateQuerySet (some ⟨[⟨"// gen:qs: note".toList⟩]⟩) = false := by
  refine ⟨?_, ?_, by decide, by decide, by decide, by decide, by decide⟩
  · intro t
    rw [doesNeedToGenerateQuerySet_single]
    exact markerOk_gen_colon t
  · intro k
    rw [doesNeedToGenerateQuerySet_single]
    exact markerOk_colon_qs k

/-! ## The annotation detector: unrelated comments -/

theorem markerLoop_append (a b : List Comment) :
    markerLoop (a ++ b) = (markerLoop a || markerLoop b) := by
  induction a with
  | nil => simp [markerLoop]
  | cons c cs ih =>
    cases h : markerOk c <;> simp [markerLoop, h, ih]

/-- C12: the result on the doc block `a ++ b` is the disjunction of the results
on `a` and on `b`; hence comment lines inserted anywhere into a selected block
leave it selected, and a block none of whose lines matches on its own is not
selected. -/
theorem doesNeedToGenerateQuerySet_append (a b : List Comment) :
    doesNeedToGenerateQuerySet (some ⟨a ++ b⟩) =
        (doesNeedToGenerateQuerySet (some ⟨a⟩) || doesNeedToGenerateQuerySet (some ⟨b⟩)) ∧
      (∀ mid : List Comment, doesNeedToGenerateQuerySet (some ⟨a ++ b⟩) = true →
        doesNeedToGenerateQuerySet (some ⟨a ++ mid ++ b⟩) = true) ∧
      ((∀ c ∈ a, doesNeedToGenerateQuerySet (some ⟨[c]⟩) = false) →
        doesNeedToGenerateQuerySet (some ⟨a⟩) = false) := by
  refine ⟨markerLoop_append a b, ?_, ?_⟩
  · intro mid h
    have h1 : markerLoop (a ++ b) = true := h
    show markerLoop (a ++ mid ++ b) = true
    rw [markerLoop_append] at h1
    rw [markerLoop_append, markerLoop_append]
    cases ha : markerLoop a
    · rw [ha] at h1
      simp only [Bool.false_or] at h1
      simp [h1]
    · simp
  · intro hall
    show markerLoop a = false
    rw [← Bool.not_eq_true, markerLoop_iff]
    rintro ⟨c, hc, hok⟩
    have := hall c hc
    rw [doesNeedToGenerateQuerySet_single, hok] at this
    exact absurd this (by decide)

theorem doesNeedToGenerateQuerySet_append_witness :
    doesNeedToGenerateQuerySet
      (some ⟨[⟨"// User is a sample model".toList⟩] ++ [⟨"// see the docs".toList⟩] ++
        [⟨"// gen:qs".toList⟩]⟩) = true :=
  (doesNeedToGenerateQuerySet_append [⟨"// User is a sample model".toList⟩]
    [⟨"// gen:qs".toList⟩]).2.1 [⟨"// see the docs".toList⟩] (by decide)

/-! ## The field classifier loop -/

theorem foldl_genStructFieldInfos {F I : Type} (g : F → Option I) (fs : List F) (acc : List I) :
    fs.foldl
        (fun ret f =>
          match g f with
          | none => ret
          | some fi => ret ++ [fi])
        acc =
      acc ++ fs.filterMap g := by
  induction fs generalizing acc with
  | nil => simp
  | cons f fs ih =>
    rw [List.foldl_cons, ih]
    cases h : g f <;> simp [List.filterMap_cons, h]

theorem genStructFieldInfos_eq_filterMap {T F I : Type} (E : Externals T F I)
    (s : ParsedStruct F) (types : T) :
    genStructFieldInfos E s types = s.Fields.filterMap (E.GenFieldInfo types) := by
  unfold genStructFieldInfos
  rw [foldl_genStructFieldInfos]
  rfl

/-- C13: `genStructFieldInfos` returns, in the declaration order of the fields,
exactly the descriptors of the fields for which the classifier returns one;
a struct with one supported and one unsupported field, in either order, yields
the one-element list holding the supported field's descriptor. -/
theorem genStructFieldInfos_filterMap {T F I : Type} (E : Externals T F I)
    (s : ParsedStruct F) (types : T) :
    genStructFieldInfos E s types = s.Fields.filterMap (E.GenFieldInfo types) ∧
      (∀ (f g : F) (fi : I), E.GenFieldInfo types f = some fi → E.GenFieldInfo types g = none →
        (s.Fields = [f, g] ∨ s.Fields = [g, f]) → genStructFieldInfos E s types = [fi]) := by
  refine ⟨genStructFieldInfos_eq_filterMap E s types, ?_⟩
  intro f g fi hf hg hs
  rw [genStructFieldInfos_eq_filterMap]
  rcases hs with h | h <;> simp [h, List.filterMap_cons, hf, hg]

theorem genStructFieldInfos_filterMap_witness :
    genStructFieldInfos sampleExternals
        { TypeName := "Account".toList, Fields := ["raw".toList, "Name".toList], Doc := none }
        () = ["Name".toList] :=
  (genStructFieldInfos_filterMap sampleExternals
    { TypeName := "Account".toList, Fields := ["raw".toList, "Name".toList], Doc := none }
    ()).2 "Name".toList "raw".toList "Name".toList (by decide) (by decide) (Or.inr rfl)

/-! ## Output composition -/

/-- C14: with at least one selected struct and all template executions
successful, the returned text is what the built-in template writes for the
sorted configs, followed, when a custom template is configured, by what the
custom template writes for the same configs; there is no error. -/
theorem GenerateQuerySetsForStructs_output {T F I : Type} (E : Externals T F I)
    (types : T) (structs : List (GoString × ParsedStruct F))
    (opts : List (GenerateQuerySetsOptions I → GenerateQuerySetsOptions I))
    (hsel : ∃ kv ∈ structs, doesNeedToGenerateQuerySet kv.2.Doc = true) :
    (∀ w : GoString, (applyOptions opts).customTemplate = none →
      E.qsTmpl.Execute (sortedQuerySetConfigs E types structs) = (w, none) →
      (GenerateQuerySetsForStructs E types structs opts).reader = some w ∧
        (GenerateQuerySetsForStructs E types structs opts).err = none) ∧
    (∀ (t : Template I) (w₀ w₁ : GoString), (applyOptions opts).customTemplate = some t →
      E.qsTmpl.Execute (sortedQuerySetConfigs E types structs) = (w₀, none) →
      t.Execute (sortedQuerySetConfigs E types structs) = (w₁, none) →
      (GenerateQuerySetsForStructs E types structs opts).reader = some (w₀ ++ w₁) ∧
        (GenerateQuerySetsForStructs E types structs opts).err = none) := by
  rw [GenerateQuerySetsForStructs_of_selected E types structs opts hsel]
  constructor
  · intro w hnone h
    simp [executeTemplates, hnone, h]
  · intro t w₀ w₁ ht h₀ h₁
    simp [executeTemplates, ht, h₀, h₁]

theorem GenerateQuerySetsForStructs_output_witness :
    (GenerateQuerySetsForStructs sampleExternals () sampleStructs
        [fun o => { o with customTemplate := some sampleCustomTemplate }]).reader =
        some ("UserGroup;User;".toList ++ "UserGroupQuerySet\nUserQuerySet\n".toList) ∧
      (GenerateQuerySetsForStructs sampleExternals () sampleStructs
        [fun o => { o with customTemplate := some sampleCustomTemplate }]).err = none :=
  (GenerateQuerySetsForStructs_output sampleExternals () sampleStructs
      [fun o => { o with customTemplate := some sampleCustomTemplate }]
      ⟨("User".toList, sampleUser), by decide, by decide⟩).2
    sampleCustomTemplate "UserGroup;User;".toList "UserGroupQuerySet\nUserQuerySet\n".toList
    rfl (by decide) (by decide)

/-! ## Order of methods and configs -/

theorem strLE_antisymm {a b : GoString} (h1 : strLE a b) (h2 : strLE b a) : a = b := by
  apply Compare_eq_zero
  have := Compare_swap a b
  unfold strLE at h1 h2
  omega

theorem strLE_of_strLT {a b : GoString} (h : strLT a b) : strLE a b := by
  unfold strLT at h
  unfold strLE
  omega

/-- The methods of every config are sorted: no method is `Less` than an
earlier one. -/
theorem querySetConfig_methods_pairwise {T F I : Type} (E : Externals T F I) (types : T)
    (structs : List (GoString × ParsedStruct F)) (c : querySetStructConfig I)
    (hc : c ∈ generateQuerySetConfigs E types structs) :
    c.Methods.Pairwise (fun a b => methodsSlice.Less b a = false) := by
  obtain ⟨kv, -, -, rfl⟩ := (mem_generateQuerySetConfigs E types structs c).1 hc
  exact E.sort.sorted methodsSlice.Less (E.Build kv.2 (genStructFieldInfos E kv.2 types))
    methodsSlice_Less_strictWeakOrder

theorem receiver_le_of_sorted {a b : Method} (h : methodsSlice.Less b a = false) :
    strLE a.GetReceiverDeclaration b.GetReceiverDeclaration := by
  rcases (methodsSlice_Less_eq_false_iff a b).1 h with h | ⟨e, -⟩
  · exact strLE_of_strLT h
  · rw [e]
    unfold strLE
    rw [Compare_self]

/-- C15: in the methods of every config, the methods with one receiver
declaration form one contiguous block (a method between two methods of equal
receiver declaration has that receiver declaration), and inside a block the
method names are in ascending order. -/
theorem generateQuerySetConfigs_receiver_blocks {T F I : Type} (E : Externals T F I)
    (types : T) (structs : List (GoString × ParsedStruct F)) (c : querySetStructConfig I)
    (hc : c ∈ generateQuerySetConfigs E types structs) :
    (∀ (i j k : Nat) (a b d : Method), i < j → j < k →
      c.Methods[i]? = some a → c.Methods[j]? = some b → c.Methods[k]? = some d →
      a.GetReceiverDeclaration = d.GetReceiverDeclaration →
      b.GetReceiverDeclaration = a.GetReceiverDeclaration) ∧
    (∀ (i j : Nat) (a b : Method), i < j →
      c.Methods[i]? = some a → c.Methods[j]? = some b →
      a.GetReceiverDeclaration = b.GetReceiverDeclaration →
      strLE a.GetMethodName b.GetMethodName) := by
  have hp := querySetConfig_methods_pairwise E types structs c hc
  constructor
  · intro i j k a b d hij hjk ha hb hd hrecv
    have h1 := receiver_le_of_sorted (pairwise_getElem? hp hij ha hb)
    have h2 := receiver_le_of_sorted (pairwise_getElem? hp hjk hb hd)
    rw [← hrecv] at h2
    exact strLE_antisymm h2 h1
  · intro i j a b hij ha hb hrecv
    rcases (methodsSlice_Less_eq_false_iff a b).1 (pairwise_getElem? hp hij ha hb) with h | ⟨-, h⟩
    · rw [hrecv, Compare_self] at h
      omega
    · exact h

theorem generateQuerySetConfigs_receiver_blocks_witness :
    strLE "AgeEq".toList "NameEq".toList :=
  (generateQuerySetConfigs_receiver_blocks sampleExternals () sampleStructs
      (querySetConfigOf sampleExternals () sampleUser) (by decide)).2 0 2
    ⟨"qs UserQuerySet".toList, "AgeEq".toList, []⟩
    ⟨"qs UserQuerySet".toList, "NameEq".toList, []⟩
    (by decide) (by decide) (by decide) (by decide)

/-- C16: with at least one selected struct, the result of
`GenerateQuerySetsForStructs` is that of executing the built-in template and
then the custom template, if one is configured, on the sorted config
collection, and this collection is in ascending order of the generated
query-set type name: of the configs at two positions `i < j`, the first has the
smaller or equal `Name`, where `Name` is the struct name followed by
`QuerySet`. -/
theorem sortedQuerySetConfigs_by_Name {T F I : Type} (E : Externals T F I) (types : T)
    (structs : List (GoString × ParsedStruct F))
    (opts : List (GenerateQuerySetsOptions I → GenerateQuerySetsOptions I))
    (hsel : ∃ kv ∈ structs, doesNeedToGenerateQuerySet kv.2.Doc = true) :
    GenerateQuerySetsForStructs E types structs opts =
      executeTemplates (sortedQuerySetConfigs E types structs)
        (E.qsTmpl :: (applyOptions opts).customTemplate.toList) [] 0 ∧
    ∀ (i j : Nat) (a b : querySetStructConfig I), i < j →
      (sortedQuerySetConfigs E types structs)[i]? = some a →
      (sortedQuerySetConfigs E types structs)[j]? = some b →
      strLE a.Name b.Name ∧ a.Name = a.StructName ++ "QuerySet".toList ∧
        b.Name = b.StructName ++ "QuerySet".toList := by
  refine ⟨GenerateQuerySetsForStructs_of_selected E types structs opts hsel, ?_⟩
  intro i j a b hij ha hb
  have hle := pairwise_getElem? (sortedQuerySetConfigs_pairwise E types structs) hij ha hb
  have hma : a ∈ generateQuerySetConfigs E types structs :=
    (mem_sortedQuerySetConfigs E types structs a).1 (List.getElem?_mem ha)
  have hmb : b ∈ generateQuerySetConfigs E types structs :=
    (mem_sortedQuerySetConfigs E types structs b).1 (List.getElem?_mem hb)
  obtain ⟨ka, -, -, rfl⟩ := (mem_generateQuerySetConfigs E types structs a).1 hma
  obtain ⟨kb, -, -, rfl⟩ := (mem_generateQuerySetConfigs E types structs b).1 hmb
  exact ⟨hle, rfl, rfl⟩

theorem sortedQuerySetConfigs_by_Name_witness :
    GenerateQuerySetsForStructs sampleExternals () sampleStructs [] =
      executeTemplates (sortedQuerySetConfigs sampleExternals () sampleStructs)
        [sampleExternals.qsTmpl] [] 0 ∧
    strLE "UserGroupQuerySet".toList "UserQuerySet".toList ∧
      "UserGroupQuerySet".toList = "UserGroup".toList ++ "QuerySet".toList ∧
      "UserQuerySet".toList = "User".toList ++ "QuerySet".toList :=
  ⟨(sortedQuerySetConfigs_by_Name sampleExternals () sampleStructs []
      ⟨("User".toList, sampleUser), by decide, by decide⟩).1,
    (sortedQuerySetConfigs_by_Name sampleExternals () sampleStructs []
        ⟨("User".toList, sampleUser), by decide, by decide⟩).2 0 1
      (querySetConfigOf sampleExternals () sampleUserGroup)
      (querySetConfigOf sampleExternals () sampleUser)
      (by decide) (by decide) (by decide)⟩

/-- C17: `methodsSlice.Less` is a strict total order on the key (receiver
declaration, method name): it is irreflexive and transitive, at most one of
`Less(a, b)` and `Less(b, a)` holds, neither holds exactly when the two methods
have the same receiver declaration and the same method name, and the method
with the smaller receiver declaration is the lesser one whatever the method
names are. -/
theorem methodsSlice_Less_strict_total :
    (∀ a : Method, methodsSlice.Less a a = false) ∧
    (∀ a b c : Method, methodsSlice.Less a b = true → methodsSlice.Less b c = true →
      methodsSlice.Less a c = true) ∧
    (∀ a b : Method, ¬ (methodsSlice.Less a b = true ∧ methodsSlice.Less b a = true)) ∧
    (∀ a b : Method, (methodsSlice.Less a b = false ∧ methodsSlice.Less b a = false) ↔
      (a.GetReceiverDeclaration = b.GetReceiverDeclaration ∧
        a.GetMethodName = b.GetMethodName)) ∧
    (∀ a b : Method, strLT a.GetReceiverDeclaration b.GetReceiverDeclaration →
      methodsSlice.Less a b = true ∧ methodsSlice.Less b a = false) := by
  have hw := methodsSlice_Less_strictWeakOrder
  refine ⟨hw.irrefl, hw.trans, ?_, ?_, ?_⟩
  · rintro a b ⟨h1, h2⟩
    have h3 := hw.trans a b a h1 h2
    rw [hw.irrefl a] at h3
    exact absurd h3 (by decide)
  · intro a b
    constructor
    · rintro ⟨h1, h2⟩
      have hr : a.GetReceiverDeclaration = b.GetReceiverDeclaration :=
        strLE_antisymm (receiver_le_of_sorted h2) (receiver_le_of_sorted h1)
      refine ⟨hr, ?_⟩
      have n1 : strLE b.GetMethodName a.GetMethodName := by
        rcases (methodsSlice_Less_eq_false_iff b a).1 h1 with h | ⟨-, h⟩
        · rw [hr, Compare_self] at h
          omega
        · exact h
      have n2 : strLE a.GetMethodName b.GetMethodName := by
        rcases (methodsSlice_Less_eq_false_iff a b).1 h2 with h | ⟨-, h⟩
        · rw [hr, Compare_self] at h
          omega
        · exact h
      exact strLE_antisymm n2 n1
    · rintro ⟨hr, hn⟩
      have e1 : strLE a.GetMethodName b.GetMethodName := by
        unfold strLE; rw [hn, Compare_self]
      have e2 : strLE b.GetMethodName a.GetMethodName := by
        unfold strLE; rw [hn, Compare_self]
      exact ⟨(methodsSlice_Less_eq_false_iff b a).2 (Or.inr ⟨hr.symm, e2⟩),
        (methodsSlice_Less_eq_false_iff a b).2 (Or.inr ⟨hr, e1⟩)⟩
  · intro a b h
    exact ⟨(methodsSlice_Less_iff a b).2 (Or.inl h),
      (methodsSlice_Less_eq_false_iff a b).2 (Or.inl h)⟩

theorem methodsSlice_Less_strict_total_witness :
    methodsSlice.Less ⟨"qs UserQuerySet".toList, "NameEq".toList, []⟩
        ⟨"u UserUpdater".toList, "All".toList, []⟩ = true ∧
      methodsSlice.Less ⟨"u UserUpdater".toList, "All".toList, []⟩
        ⟨"qs UserQuerySet".toList, "NameEq".toList, []⟩ = false :=
  methodsSlice_Less_strict_total.2.2.2.2
    ⟨"qs UserQuerySet".toList, "NameEq".toList, []⟩ ⟨"u UserUpdater".toList, "All".toList, []⟩
    (by decide)

/-! ## Sorting keeps the elements -/

/-- C18: sorting neither drops nor invents anything: every config stems from a
selected struct, its methods being a rearrangement of the list returned by the
methods builder for that struct and its fields being the classifier's output in
declaration order; every selected struct has such a config; and the sorted
config collection is a rearrangement of the collection built by
`generateQuerySetConfigs`. -/
theorem sorting_keeps_elements {T F I : Type} (E : Externals T F I) (types : T)
    (structs : List (GoString × ParsedStruct F)) :
    (∀ c ∈ generateQuerySetConfigs E types structs,
      ∃ kv ∈ structs, doesNeedToGenerateQuerySet kv.2.Doc = true ∧
        c.StructName = kv.2.TypeName ∧
        c.Methods.Perm (E.Build kv.2 (kv.2.Fields.filterMap (E.GenFieldInfo types))) ∧
        c.Fields = kv.2.Fields.filterMap (E.GenFieldInfo types)) ∧
    (∀ kv ∈ structs, doesNeedToGenerateQuerySet kv.2.Doc = true →
      ∃ c ∈ generateQuerySetConfigs E types structs,
        c.StructName = kv.2.TypeName ∧
        c.Methods.Perm (E.Build kv.2 (kv.2.Fields.filterMap (E.GenFieldInfo types))) ∧
        c.Fields = kv.2.Fields.filterMap (E.GenFieldInfo types)) ∧
    (sortedQuerySetConfigs E types structs).Perm (generateQuerySetConfigs E types structs) := by
  have hcfg : ∀ s : ParsedStruct F,
      (querySetConfigOf E types s).Methods.Perm
          (E.Build s (s.Fields.filterMap (E.GenFieldInfo types))) ∧
        (querySetConfigOf E types s).Fields = s.Fields.filterMap (E.GenFieldInfo types) := by
    intro s
    constructor
    · show (E.sort.run methodsSlice.Less (E.Build s (genStructFieldInfos E s types))).Perm _
      rw [genStructFieldInfos_eq_filterMap]
      exact E.sort.perm _ _
    · exact genStructFieldInfos_eq_filterMap E s types
  refine ⟨?_, ?_, E.sort.perm _ _⟩
  · intro c hc
    obtain ⟨kv, hkv, hsel, rfl⟩ := (mem_generateQuerySetConfigs E types structs c).1 hc
    exact ⟨kv, hkv, hsel, rfl, (hcfg kv.2).1, (hcfg kv.2).2⟩
  · intro kv hkv hsel
    exact ⟨querySetConfigOf E types kv.2,
      (mem_generateQuerySetConfigs E types structs _).2 ⟨kv, hkv, hsel, rfl⟩, rfl,
      (hcfg kv.2).1, (hcfg kv.2).2⟩

theorem sorting_keeps_elements_witness :
    ∃ c ∈ generateQuerySetConfigs sampleExternals () sampleStructs,
      c.StructName = sampleUser.TypeName ∧
      c.Methods.Perm (sampleExternals.Build sampleUser
        (sampleUser.Fields.filterMap (sampleExternals.GenFieldInfo ()))) ∧
      c.Fields = sampleUser.Fields.filterMap (sampleExternals.GenFieldInfo ()) :=
  (sorting_keeps_elements sampleExternals () sampleStructs).2.1
    ("User".toList, sampleUser) (by decide) (by decide)

end QuerySet
